import Mathlib

/-!
# part4.go — contract demo: reader, writer and confirmation sequence

A shallow embedding of `src/part4/part4.go`.

* The program's own functions (`callContract`, `initSomeinfo`, `callContractEx`,
  `setContract`, `main`) are translated statement by statement.
* The chain node is a deterministic oracle `World σ` over an arbitrary state `σ`;
  every call the program makes on the client or on the bound handle is appended
  to a trace, every `fmt.Println` to the output.
* The pure functions of the go-ethereum library the program calls are either
  modelled (ABI `Pack`/`Unpack`, `BoundContract.Call`/`Transact`, `Hash.String`,
  `HexToHash`, `big.Int.String`) or left abstract in `Lib` (JSON parsing, key
  handling), so that each of their failures can occur.
* Go's `nil` pointer is `none`, Go's `error` is `Option Err`, a Go panic is
  `Result.panic`.
-/

namespace Part4

/-! ## Bytes, fixed-size byte arrays, machine-level codecs -/

abbrev Byte := Fin 256

abbrev Bytes := List Byte

/-- Go's `[n]byte`: exactly `n` bytes. -/
structure FixedBytes (n : Nat) where
  bytes : Bytes
  size : bytes.length = n
deriving DecidableEq

/-- Go's `common.Address`, `[20]byte`. -/
abbrev Address := FixedBytes 20

/-- Go's `common.Hash`, `[32]byte`. -/
abbrev Hash := FixedBytes 32

/-- The zero value of `[n]byte`, written `[20]byte{}` in the source. -/
def FixedBytes.zero (n : Nat) : FixedBytes n := ⟨List.replicate n 0, by simp⟩

/-- Go's `error` values, identified with their message. -/
abbrev Err := String

/-- Go's `*big.Int`. -/
abbrev BigInt := Int

/-- The `w` low-order bytes of `n`, most significant first. -/
def beBytes : Nat → Nat → Bytes
  | 0, _ => []
  | w + 1, n => beBytes w (n / 256) ++ [⟨n % 256, Nat.mod_lt n (by decide)⟩]

/-- Go's `new(big.Int).SetBytes(b)`: `b` read as a big-endian unsigned integer. -/
def setBytes (b : Bytes) : BigInt :=
  Int.ofNat (b.foldl (fun acc x => acc * 256 + x.val) 0)

/-- Library `math.U256Bytes`: the value reduced modulo `2^256` (two's complement),
as 32 big-endian bytes. -/
def u256Bytes (v : BigInt) : Bytes := beBytes 32 (v % 2 ^ 256).toNat

/-- Go's `(*big.Int).String()`: the decimal representation. -/
def bigIntString (a : BigInt) : String := toString a

/-- Library `abi.ConvertType(in, new(big.Int)).(*big.Int)` on a value that is
already a `*big.Int`: the value itself. -/
def convertType (v : BigInt) : BigInt := v

/-! ## Hex strings (`common.Hash.String`, `common.HexToHash`) -/

/-- One lower-case hex digit, as `hex.EncodeToString` writes it. -/
def hexDigit (d : Nat) : Char :=
  if d < 10 then Char.ofNat (48 + d) else Char.ofNat (87 + d)

/-- Go's `hex.EncodeToString`, as a list of characters. -/
def encodeHex : Bytes → List Char
  | [] => []
  | b :: bs => hexDigit (b.val / 16) :: hexDigit (b.val % 16) :: encodeHex bs

/-- Library `Hash.String()` = `hexutil.Encode(h[:])`: `0x` and 64 hex digits. -/
def FixedBytes.String {n : Nat} (h : FixedBytes n) : String :=
  String.mk ('0' :: 'x' :: encodeHex h.bytes)

/-- Go's `hex` digit table (`fromHexChar`): both cases are accepted. -/
def fromHexChar (c : Char) : Option Nat :=
  if '0' ≤ c ∧ c ≤ '9' then some (c.toNat - 48)
  else if 'a' ≤ c ∧ c ≤ 'f' then some (c.toNat - 87)
  else if 'A' ≤ c ∧ c ≤ 'F' then some (c.toNat - 55)
  else none

/-- Go's `hex.DecodeString` with the error dropped, as `common.Hex2Bytes` uses it:
the bytes decoded before the first invalid digit (or dangling digit). -/
def hex2Bytes : List Char → Bytes
  | a :: b :: rest =>
    match fromHexChar a, fromHexChar b with
    | some x, some y => ⟨(x * 16 + y) % 256, Nat.mod_lt _ (by decide)⟩ :: hex2Bytes rest
    | _, _ => []
  | _ => []

/-- Library `has0xPrefix`. -/
def has0xPrefix (s : List Char) : Bool :=
  match s with
  | a :: b :: _ => a == '0' && (b == 'x' || b == 'X')
  | _ => false

/-- Library `common.FromHex`: strip `0x`, pad an odd number of digits with a
leading `0`, decode. -/
def fromHex (s : String) : Bytes :=
  let s1 := if has0xPrefix s.data then s.data.drop 2 else s.data
  let s2 := if s1.length % 2 = 1 then '0' :: s1 else s1
  hex2Bytes s2

/-- Library `SetBytes` of `common.Hash` and `common.Address`: keep the last `n`
bytes, pad on the left with zeros. -/
def FixedBytes.ofBytes (n : Nat) (b : Bytes) : FixedBytes n :=
  let b1 := b.drop (b.length - n)
  ⟨List.replicate (n - b1.length) 0 ++ b1, by
    simp only [List.length_append, List.length_replicate, b1, List.length_drop]; omega⟩

/-- Library `common.BytesToHash`. -/
def bytesToHash (b : Bytes) : Hash := FixedBytes.ofBytes 32 b

/-- Library `common.BytesToAddress`. -/
def bytesToAddress (b : Bytes) : Address := FixedBytes.ofBytes 20 b

/-- Library `common.HexToHash`. -/
def hexToHash (s : String) : Hash := bytesToHash (fromHex s)

/-! ## The contract ABI (library `accounts/abi`) -/

/-- The fragment of the ABI type language that `CONTRACT_ABI` uses. -/
inductive Ty
  | uint256
deriving DecidableEq

/-- Library `abi.Argument`. -/
structure Argument where
  name : String
  ty : Ty
deriving DecidableEq

/-- Library `abi.Method`: name, 4-byte selector `ID`, inputs and outputs. -/
structure Method where
  name : String
  id : Bytes
  inputs : List Argument
  outputs : List Argument
deriving DecidableEq

/-- Library `abi.ABI`: the constructor inputs and the methods by name (the
program's ABI declares no events). -/
structure ABI where
  ctorInputs : List Argument
  methods : List Method
deriving DecidableEq

/-- Go's `abi.Methods[name]`. -/
def ABI.method? (a : ABI) (name : String) : Option Method :=
  a.methods.find? (fun m => m.name == name)

/-- Library `Type.pack` for `uint256` given a `*big.Int`. -/
def Ty.pack (_t : Ty) (v : BigInt) : Bytes := u256Bytes v

/-- Library `Arguments.Pack`: the argument count must match; static values are
concatenated in order. -/
def Arguments.pack (abiArgs : List Argument) (args : List BigInt) : Except Err Bytes :=
  if args.length ≠ abiArgs.length then
    .error ("abi: argument count mismatch: got " ++ toString args.length ++ " for "
      ++ toString abiArgs.length)
  else
    .ok ((List.zipWith (fun (a : Argument) v => a.ty.pack v) abiArgs args).flatten)

/-- Library `ABI.Pack(name, args...)`: the empty name packs constructor
arguments; otherwise the method must exist and its selector is prepended. -/
def ABI.pack (a : ABI) (name : String) (args : List BigInt) : Except Err Bytes :=
  if name = "" then Arguments.pack a.ctorInputs args
  else
    match a.method? name with
    | none => .error ("method " ++ name ++ " not found")
    | some method =>
      match Arguments.pack method.inputs args with
      | .error err => .error err
      | .ok arguments => .ok (method.id ++ arguments)

/-- Library `toGoType` for `uint256`: the 32 bytes at `index`, read as an unsigned
big-endian integer (`ReadInteger`). -/
def toGoType (index : Nat) (_t : Ty) (output : Bytes) : Except Err BigInt :=
  if index + 32 > output.length then
    .error ("abi: cannot marshal in to go type: length insufficient "
      ++ toString output.length ++ " require " ++ toString (index + 32))
  else .ok (setBytes ((output.drop index).take 32))

/-- The loop of library `Arguments.UnpackValues`, from argument number `index`. -/
def unpackValuesFrom : Nat → List Argument → Bytes → Except Err (List BigInt)
  | _, [], _ => .ok []
  | index, arg :: rest, data =>
    match toGoType (index * 32) arg.ty data with
    | .error err => .error err
    | .ok v =>
      match unpackValuesFrom (index + 1) rest data with
      | .error err => .error err
      | .ok vs => .ok (v :: vs)

/-- Library `Arguments.Unpack`, with Go's pair of results: a `nil` slice comes
with every error. -/
def Arguments.unpack (arguments : List Argument) (data : Bytes) : List BigInt × Option Err :=
  if data.length = 0 then
    if arguments.length ≠ 0 then
      ([], some "abi: attempting to unmarshal an empty string while arguments are expected")
    else ([], none)
  else
    match unpackValuesFrom 0 arguments data with
    | .error err => ([], some err)
    | .ok vs => (vs, none)

/-- Library `ABI.Unpack(name, data)`: the method's outputs decode `data`, whose
length must be a multiple of 32. -/
def ABI.unpack (a : ABI) (name : String) (data : Bytes) : List BigInt × Option Err :=
  match a.method? name with
  | none => ([], some ("abi: could not locate named method or event: " ++ name))
  | some method =>
    if data.length % 32 ≠ 0 then ([], some "abi: improperly formatted output")
    else Arguments.unpack method.outputs data

/-- Library `ABI.MethodById`: the method whose selector is the first four bytes. -/
def ABI.methodById (a : ABI) (sigdata : Bytes) : Except Err Method :=
  if sigdata.length < 4 then .error "data too short for abi method lookup"
  else
    match a.methods.find? (fun m => m.id = sigdata.take 4) with
    | some method => .ok method
    | none => .error "no method with id"

/-- Decoding the arguments of a call payload through the descriptor:
`MethodById` on the payload, then `Inputs.Unpack` on what follows the selector. -/
def ABI.decodeCall (a : ABI) (payload : Bytes) : List BigInt × Option Err :=
  match a.methodById payload with
  | .error err => ([], some err)
  | .ok method => Arguments.unpack method.inputs (payload.drop 4)

/-! ## Constants of the program -/

def RPC_URL : String := "your rpc url"

def PRIKEY : String := "your private key"

def CONTRACT : String := "you contract address"

def CONTRACT_ABI : String :=
  "\n[\n\t\x7b\n\t\t\"inputs\": [],\n\t\t\"name\": \"retrieve\",\n\t\t\"outputs\": [\n\t\t\t\x7b"
  ++ "\n\t\t\t\t\"internalType\": \"uint256\",\n\t\t\t\t\"name\": \"\",\n\t\t\t\t\"type\": \"uint256\""
  ++ "\n\t\t\t\x7d\n\t\t],\n\t\t\"stateMutability\": \"view\",\n\t\t\"type\": \"function\"\n\t\x7d,"
  ++ "\n\t\x7b\n\t\t\"inputs\": [\n\t\t\t\x7b\n\t\t\t\t\"internalType\": \"uint256\","
  ++ "\n\t\t\t\t\"name\": \"num\",\n\t\t\t\t\"type\": \"uint256\"\n\t\t\t\x7d\n\t\t],"
  ++ "\n\t\t\"name\": \"store\",\n\t\t\"outputs\": [],\n\t\t\"stateMutability\": \"nonpayable\","
  ++ "\n\t\t\"type\": \"function\"\n\t\x7d\n]"

/-- Selector of `retrieve()`: the first four bytes of its Keccak-256 hash. -/
def retrieveID : Bytes := [0x2e, 0x64, 0xce, 0xc1]

/-- Selector of `store(uint256)`: the first four bytes of its Keccak-256 hash. -/
def storeID : Bytes := [0x60, 0x57, 0x36, 0x1d]

/-- The method `retrieve() view returns (uint256)` of `CONTRACT_ABI`. -/
def retrieveMethod : Method :=
  { name := "retrieve", id := retrieveID, inputs := [], outputs := [{ name := "", ty := .uint256 }] }

/-- The method `store(uint256 num)` of `CONTRACT_ABI`. -/
def storeMethod : Method :=
  { name := "store", id := storeID, inputs := [{ name := "num", ty := .uint256 }], outputs := [] }

/-- The descriptor that `abi.JSON` yields for `CONTRACT_ABI`: its two functions. -/
def contractAbi : ABI := { ctorInputs := [], methods := [retrieveMethod, storeMethod] }

/-! ## The chain client collaborator -/

/-- Go's `context.Context` values the program builds. -/
inductive Context
  | background
  | withTimeout (seconds : Nat)
deriving DecidableEq

/-- Library `ethereum.CallMsg`; the fields left out are zero in every message of
this program. -/
structure CallMsg where
  sender : Address
  toAddr : Option Address
  data : Bytes
deriving DecidableEq

/-- Library `*ecdsa.PrivateKey`, kept abstract. -/
abbrev PrivateKey := Nat

/-- Library `*ecdsa.PublicKey`, kept abstract. -/
abbrev PublicKey := Nat

/-- The signing function of a keyed transactor: it captures the key and the
chain identifier. -/
structure Signer where
  key : PrivateKey
  chainId : BigInt
deriving DecidableEq

/-- Library `bind.TransactOpts`. -/
structure TransactOpts where
  sender : Address
  nonce : Option BigInt
  signer : Option Signer
  value : Option BigInt
  gasPrice : Option BigInt
  gasFeeCap : Option BigInt
  gasTipCap : Option BigInt
  gasLimit : Nat
  context : Option Context
  noSend : Bool
deriving DecidableEq

/-- Library `bind.CallOpts`. -/
structure CallOpts where
  pending : Bool
  sender : Address
  blockNumber : Option BigInt
  context : Option Context
deriving DecidableEq

/-- The zero value `bind.CallOpts{}`. -/
def CallOpts.zero : CallOpts :=
  { pending := false, sender := FixedBytes.zero 20, blockNumber := none, context := none }

/-- Library `*types.Transaction`, as far as the program looks at it. -/
structure Transaction where
  hash : Hash
  toAddr : Address
  data : Bytes
deriving DecidableEq

/-- Library `*types.Receipt`, as far as the program looks at it. -/
structure Receipt where
  txHash : Hash
  status : Nat
deriving DecidableEq

/-- Library `bind.BoundContract`: address and ABI (the client is the one
connection of the run). -/
structure BoundContract where
  address : Address
  abi : ABI
deriving DecidableEq

/-- Library `bind.NewBoundContract`. -/
def newBoundContract (address : Address) (abi : ABI) : BoundContract :=
  { address := address, abi := abi }

/-- The pure library functions the program calls and this development leaves
abstract; every one of them may fail where the Go function may. -/
structure Lib where
  abiJSON : String → Except Err ABI
  hexToAddress : String → Address
  hexToECDSA : String → Except Err PrivateKey
  publicKeyECDSA : PrivateKey → Option PublicKey
  pubkeyToAddress : PublicKey → Address
  newKeyedTransactorWithChainID : PrivateKey → BigInt → Except Err TransactOpts

/-- The node behind the client, as a deterministic oracle with state `σ`: each
request yields an answer and the next state. -/
structure World (σ : Type) where
  dial : String → σ → Option Err × σ
  close : σ → σ
  chainID : Context → σ → Except Err BigInt × σ
  callContract : Context → CallMsg → Option BigInt → σ → Except Err Bytes × σ
  pendingCallContract : Context → CallMsg → σ → Except Err Bytes × σ
  codeAt : Context → Address → Option BigInt → σ → Except Err Bytes × σ
  pendingCodeAt : Context → Address → σ → Except Err Bytes × σ
  transact : TransactOpts → Address → Bytes → σ → Except Err Transaction × σ
  transactionReceipt : Context → Hash → σ → Except Err Receipt × σ
  sleep : Nat → σ → σ

/-- The calls the program makes on the client and on the bound handle, each
with the answer it got. -/
inductive Event
  | dial (rawurl : String) (err : Option Err)
  | close
  | chainID (ctx : Context) (res : Except Err BigInt)
  | callContract (ctx : Context) (msg : CallMsg) (blockNumber : Option BigInt)
      (res : Except Err Bytes)
  | call (c : BoundContract) (opts : CallOpts) (method : String) (params : List BigInt)
      (res : List BigInt × Option Err)
  | transact (c : BoundContract) (opts : TransactOpts) (method : String) (params : List BigInt)
      (res : Except Err Transaction)
  | transactionReceipt (ctx : Context) (txHash : Hash) (res : Except Err Receipt)

/-- The lines the program prints, one constructor for each `fmt.Println` of the
source, in the order of the source. -/
inductive Line
  | dialFailed (err : Err)
  | dialSuccess
  | initFailed (err : Err)
  | initSuccess
  | storeOk (txHash : String)
  | setFailed (err : Err)
  | setSuccess
  | receiptFailed (err : Err)
  | receiptSuccess (status : Nat)
  | call1Failed (err : Err)
  | call1Success (retval : String)
  | call2Failed
  | call2Success (retval : String)
deriving DecidableEq

/-- The text of a printed line; `fmt.Println` puts one blank between operands. -/
def Line.text : Line → String
  | .dialFailed err => "dial etherum network failed: " ++ err
  | .dialSuccess => "dial success"
  | .initFailed err => "initSomeinfo failed: " ++ err
  | .initSuccess => "initSomeinfo success"
  | .storeOk txHash => "store ok, txHash: " ++ txHash
  | .setFailed err => err
  | .setSuccess => "call contract set function success"
  | .receiptFailed err => "get transaction receipt failed: " ++ err
  | .receiptSuccess status => "get receipt success:  " ++ toString status
  | .call1Failed err => "callContract failed: " ++ err
  | .call1Success retval => "1st way call contract success: " ++ retval
  | .call2Failed => "callContractEX failed"
  | .call2Success retval => "2nd way call contract success: " ++ retval

/-- What a Go function call comes to: it returns, or it panics. -/
inductive Result (α : Type) where
  | ret (a : α)
  | panic (msg : String)
deriving DecidableEq

/-- The running program: node state, calls made so far, lines printed so far. -/
structure Run (σ : Type) where
  node : σ
  trace : List Event
  out : List Line

/-- Go's `fmt.Println` of one line. -/
def Run.println {σ : Type} (r : Run σ) (line : Line) : Run σ :=
  { r with out := r.out ++ [line] }

/-- Record a call with its answer, and the node state after it. -/
def Run.after {σ : Type} (r : Run σ) (e : Event) (s : σ) : Run σ :=
  { r with node := s, trace := r.trace ++ [e] }

/-- Library `ensureContext`. -/
def ensureContext (ctx : Option Context) : Context :=
  match ctx with
  | none => .background
  | some c => c

/-- Library `bind.ErrNoCode`. -/
def ErrNoCode : Err := "no contract code at given address"

/-- Library `BoundContract.Call(opts, results, method, params...)` for an empty
`*results`: pack the input, call, check for code when the output is empty,
unpack. Returns the new `*results` and the error. -/
def BoundContract.call {σ : Type} (W : World σ) (c : BoundContract) (opts : CallOpts)
    (method : String) (params : List BigInt) (s : σ) : (List BigInt × Option Err) × σ :=
  match c.abi.pack method params with
  | .error err => (([], some err), s)
  | .ok input =>
    let msg : CallMsg := { sender := opts.sender, toAddr := some c.address, data := input }
    let ctx := ensureContext opts.context
    if opts.pending then
      let p := W.pendingCallContract ctx msg s
      match p.1 with
      | .error err => (([], some err), p.2)
      | .ok output =>
        if output.length = 0 then
          let q := W.pendingCodeAt ctx c.address p.2
          match q.1 with
          | .error err => (([], some err), q.2)
          | .ok code =>
            if code.length = 0 then (([], some ErrNoCode), q.2)
            else (c.abi.unpack method output, q.2)
        else (c.abi.unpack method output, p.2)
    else
      let p := W.callContract ctx msg opts.blockNumber s
      match p.1 with
      | .error err => (([], some err), p.2)
      | .ok output =>
        if output.length = 0 then
          let q := W.codeAt ctx c.address opts.blockNumber p.2
          match q.1 with
          | .error err => (([], some err), q.2)
          | .ok code =>
            if code.length = 0 then (([], some ErrNoCode), q.2)
            else (c.abi.unpack method output, q.2)
        else (c.abi.unpack method output, p.2)

/-- Library `BoundContract.Transact(opts, method, params...)`: pack the input,
then hand it to the node-facing `transact` (nonce, gas, signature, send). -/
def BoundContract.transact {σ : Type} (W : World σ) (c : BoundContract) (opts : TransactOpts)
    (method : String) (params : List BigInt) (s : σ) : Except Err Transaction × σ :=
  match c.abi.pack method params with
  | .error err => (.error err, s)
  | .ok input => W.transact opts c.address input s

/-! ## The program -/

/-- Source `callContract` (lines 26-50). The error of `Unpack` is dropped
(`unpackData, _ :=`) and `unpackData[0]` is indexed unconditionally. -/
def callContract {σ : Type} (L : Lib) (W : World σ) (r : Run σ) :
    Result (String × Option Err) × Run σ :=
  let contractAddr := L.hexToAddress CONTRACT
  match L.abiJSON CONTRACT_ABI with
  | .error err => (.ret ("", some err), r)
  | .ok contractAbi =>
    match contractAbi.pack "retrieve" [] with
    | .error err => (.ret ("", some err), r)
    | .ok data =>
      let msg : CallMsg := { sender := FixedBytes.zero 20, toAddr := some contractAddr, data := data }
      let ctxTimeout := Context.withTimeout 5
      let p := W.callContract ctxTimeout msg none r.node
      let r1 := r.after (.callContract ctxTimeout msg none p.1) p.2
      match p.1 with
      | .error err => (.ret ("", some err), r1)
      | .ok retData =>
        let unpackData := (contractAbi.unpack "retrieve" retData).1
        match unpackData[0]? with
        | none => (.panic "runtime error: index out of range [0] with length 0", r1)
        | some v =>
          let a := convertType v
          (.ret (bigIntString a, none), r1)

/-- Source `initSomeinfo` (lines 52-85). -/
def initSomeinfo {σ : Type} (L : Lib) (W : World σ) (r : Run σ) :
    (Option BoundContract × Address × Option TransactOpts × Option Err) × Run σ :=
  let contractAddr := L.hexToAddress CONTRACT
  match L.abiJSON CONTRACT_ABI with
  | .error err => ((none, FixedBytes.zero 20, none, some (": " ++ err)), r)
  | .ok contractAbi =>
    let contract := newBoundContract contractAddr contractAbi
    let p := W.chainID .background r.node
    let r1 := r.after (.chainID .background p.1) p.2
    match p.1 with
    | .error err => ((none, FixedBytes.zero 20, none, some (": " ++ err)), r1)
    | .ok chainId =>
      match L.hexToECDSA PRIKEY with
      | .error err =>
        ((none, FixedBytes.zero 20, none, some ("privateKey HexToECDSA failed: " ++ err)), r1)
      | .ok privateKey =>
        match L.publicKeyECDSA privateKey with
        | none => ((none, FixedBytes.zero 20, none, some ": %!w(<nil>)"), r1)
        | some publickKeyECDSA =>
          let fromAddr := L.pubkeyToAddress publickKeyECDSA
          match L.newKeyedTransactorWithChainID privateKey chainId with
          | .error err => ((none, FixedBytes.zero 20, none, some (": " ++ err)), r1)
          | .ok auth => ((some contract, fromAddr, some auth, none), r1)

/-- Source `callContractEx` (lines 86-94). -/
def callContractEx {σ : Type} (W : World σ) (contract : Option BoundContract) (r : Run σ) :
    Result (String × Option Err) × Run σ :=
  match contract with
  | none => (.panic "runtime error: invalid memory address or nil pointer dereference", r)
  | some c =>
    let p := c.call W CallOpts.zero "retrieve" [] r.node
    let r1 := r.after (.call c CallOpts.zero "retrieve" [] p.1) p.2
    match p.1.2 with
    | some err => (.ret ("", some ("call failed: " ++ err)), r1)
    | none =>
      match p.1.1[0]? with
      | none => (.panic "runtime error: index out of range [0] with length 0", r1)
      | some v =>
        let a := convertType v
        (.ret (bigIntString a, none), r1)

/-- The literal `&bind.TransactOpts{Context: context.Background(), From: fromAddr,
Signer: auth.Signer}` of `setContract` (lines 96-100): every other field is zero. -/
def storeOpts (fromAddr : Address) (auth : TransactOpts) : TransactOpts :=
  { sender := fromAddr, nonce := none, signer := auth.signer, value := none,
    gasPrice := none, gasFeeCap := none, gasTipCap := none, gasLimit := 0,
    context := some .background, noSend := false }

/-- Source `setContract` (lines 95-107). -/
def setContract {σ : Type} (W : World σ) (contract : Option BoundContract) (fromAddr : Address)
    (auth : Option TransactOpts) (r : Run σ) : Result (String × Option Err) × Run σ :=
  match auth with
  | none => (.panic "runtime error: invalid memory address or nil pointer dereference", r)
  | some auth =>
    let opts : TransactOpts := storeOpts fromAddr auth
    match contract with
    | none => (.panic "runtime error: invalid memory address or nil pointer dereference", r)
    | some c =>
      let p := c.transact W opts "store" [666] r.node
      let r1 := r.after (.transact c opts "store" [666] p.1) p.2
      match p.1 with
      | .error err => (.ret ("", some (": " ++ err)), r1)
      | .ok transInfo =>
        let r2 := r1.println (.storeOk transInfo.hash.String)
        (.ret (transInfo.hash.String, none), r2)

/-- Source `main`, lines 118-155: what runs between `defer client.Close()` and
the return (or panic) that triggers it. -/
def mainConnected {σ : Type} (L : Lib) (W : World σ) (r : Run σ) : Result Unit × Run σ :=
  let r := r.println .dialSuccess
  let i := initSomeinfo L W r
  match i.1.2.2.2 with
  | some err => (.ret (), i.2.println (.initFailed err))
  | none =>
    let r := i.2.println .initSuccess
    let t := setContract W i.1.1 i.1.2.1 i.1.2.2.1 r
    match t.1 with
    | .panic msg => (.panic msg, t.2)
    | .ret (_, some err) => (.ret (), t.2.println (.setFailed err))
    | .ret (txhash, none) =>
      let r := t.2.println .setSuccess
      let s := W.sleep 15 r.node
      let q := W.transactionReceipt .background (hexToHash txhash) s
      let r := r.after (.transactionReceipt .background (hexToHash txhash) q.1) q.2
      match q.1 with
      | .error err => (.ret (), r.println (.receiptFailed err))
      | .ok receipt =>
        let r := r.println (.receiptSuccess receipt.status)
        let c1 := callContract L W r
        match c1.1 with
        | .panic msg => (.panic msg, c1.2)
        | .ret (_, some err) => (.ret (), c1.2.println (.call1Failed err))
        | .ret (retval1, none) =>
          let r := c1.2.println (.call1Success retval1)
          let c2 := callContractEx W i.1.1 r
          match c2.1 with
          | .panic msg => (.panic msg, c2.2)
          | .ret (_, some _) => (.ret (), c2.2.println .call2Failed)
          | .ret (retval2, none) =>
            (.ret (), c2.2.println (.call2Success retval2))

/-- Source `main` (lines 108-156). The deferred `client.Close()` runs when the
rest of the function returns and also when it panics. -/
def main {σ : Type} (L : Lib) (W : World σ) (s : σ) : Result Unit × Run σ :=
  let r : Run σ := { node := s, trace := [], out := [] }
  let d := W.dial RPC_URL r.node
  let r := r.after (.dial RPC_URL d.1) d.2
  match d.1 with
  | some err => (.ret (), r.println (.dialFailed err))
  | none =>
    let b := mainConnected L W r
    (b.1, b.2.after .close (W.close b.2.node))

/-! ## Reading a run -/

/-- The message both readers send: `retrieve()` to the contract address. -/
def retrieveMsg (L : Lib) : CallMsg :=
  { sender := FixedBytes.zero 20, toAddr := some (L.hexToAddress CONTRACT), data := retrieveID }

/-- The step of `main` a call belongs to: connect, `initSomeinfo`, `setContract`,
receipt query, `callContract`, `callContractEx`; closing comes last. -/
def Event.step : Event → Nat
  | .dial _ _ => 1
  | .chainID _ _ => 2
  | .transact _ _ _ _ _ => 3
  | .transactionReceipt _ _ _ => 4
  | .callContract _ _ _ _ => 5
  | .call _ _ _ _ _ => 6
  | .close => 7

/-- Whether the answer to a call was an error. -/
def Event.failed : Event → Bool
  | .dial _ (some _) => true
  | .chainID _ (.error _) => true
  | .transact _ _ _ _ (.error _) => true
  | .transactionReceipt _ _ (.error _) => true
  | .callContract _ _ _ (.error _) => true
  | .call _ _ _ _ (_, some _) => true
  | _ => false

/-- The step of `main` a printed line belongs to. -/
def Line.step : Line → Nat
  | .dialFailed _ => 1
  | .dialSuccess => 1
  | .initFailed _ => 2
  | .initSuccess => 2
  | .storeOk _ => 3
  | .setFailed _ => 3
  | .setSuccess => 3
  | .receiptFailed _ => 4
  | .receiptSuccess _ => 4
  | .call1Failed _ => 5
  | .call1Success _ => 5
  | .call2Failed => 6
  | .call2Success _ => 6

/-- The diagnostic lines: the ones `main` prints before it returns early. -/
def Line.isFailure : Line → Bool
  | .dialFailed _ => true
  | .initFailed _ => true
  | .setFailed _ => true
  | .receiptFailed _ => true
  | .call1Failed _ => true
  | .call2Failed => true
  | _ => false

/-- The ways a run of `main` can go, each with its result, its trace and its
output: the dial fails; a step after it fails or panics; or all steps succeed. -/
inductive MainShape : Result Unit → List Event → List Line → Prop
  | dialFailed (e : Err) :
      MainShape (.ret ()) [.dial RPC_URL (some e)] [.dialFailed e]
  | initFailed (e : Err) (pre : List Event)
      (hpre : pre = [] ∨ ∃ res, pre = [.chainID .background res]) :
      MainShape (.ret ()) (.dial RPC_URL none :: pre ++ [.close]) [.dialSuccess, .initFailed e]
  | setFailed (chain : BigInt) (c : BoundContract) (opts : TransactOpts) (e : Err) :
      MainShape (.ret ())
        [.dial RPC_URL none, .chainID .background (.ok chain),
          .transact c opts "store" [666] (.error e), .close]
        [.dialSuccess, .initSuccess, .setFailed (": " ++ e)]
  | receiptFailed (chain : BigInt) (c : BoundContract) (opts : TransactOpts) (tx : Transaction)
      (e : Err) :
      MainShape (.ret ())
        [.dial RPC_URL none, .chainID .background (.ok chain),
          .transact c opts "store" [666] (.ok tx),
          .transactionReceipt .background tx.hash (.error e), .close]
        [.dialSuccess, .initSuccess, .storeOk tx.hash.String, .setSuccess, .receiptFailed e]
  | call1Failed (chain : BigInt) (c : BoundContract) (opts : TransactOpts) (tx : Transaction)
      (rc : Receipt) (e : Err) (x5 : List Event)
      (hx5 : x5 = [] ∨ ∃ msg, x5 = [.callContract (.withTimeout 5) msg none (.error e)]) :
      MainShape (.ret ())
        ([.dial RPC_URL none, .chainID .background (.ok chain),
          .transact c opts "store" [666] (.ok tx),
          .transactionReceipt .background tx.hash (.ok rc)] ++ x5 ++ [.close])
        [.dialSuccess, .initSuccess, .storeOk tx.hash.String, .setSuccess,
          .receiptSuccess rc.status, .call1Failed e]
  | call1Panic (chain : BigInt) (c : BoundContract) (opts : TransactOpts) (tx : Transaction)
      (rc : Receipt) (msg : CallMsg) (data : Bytes) (m : String) :
      MainShape (.panic m)
        [.dial RPC_URL none, .chainID .background (.ok chain),
          .transact c opts "store" [666] (.ok tx),
          .transactionReceipt .background tx.hash (.ok rc),
          .callContract (.withTimeout 5) msg none (.ok data), .close]
        [.dialSuccess, .initSuccess, .storeOk tx.hash.String, .setSuccess,
          .receiptSuccess rc.status]
  | call2Failed (chain : BigInt) (c : BoundContract) (opts : TransactOpts) (tx : Transaction)
      (rc : Receipt) (msg : CallMsg) (data : Bytes) (v : String)
      (res : List BigInt × Option Err) (e : Err) (hres : res.2 = some e) :
      MainShape (.ret ())
        [.dial RPC_URL none, .chainID .background (.ok chain),
          .transact c opts "store" [666] (.ok tx),
          .transactionReceipt .background tx.hash (.ok rc),
          .callContract (.withTimeout 5) msg none (.ok data),
          .call c CallOpts.zero "retrieve" [] res, .close]
        [.dialSuccess, .initSuccess, .storeOk tx.hash.String, .setSuccess,
          .receiptSuccess rc.status, .call1Success v, .call2Failed]
  | call2Panic (chain : BigInt) (c : BoundContract) (opts : TransactOpts) (tx : Transaction)
      (rc : Receipt) (msg : CallMsg) (data : Bytes) (v : String)
      (res : List BigInt × Option Err) (m : String) (hres : res.2 = none) :
      MainShape (.panic m)
        [.dial RPC_URL none, .chainID .background (.ok chain),
          .transact c opts "store" [666] (.ok tx),
          .transactionReceipt .background tx.hash (.ok rc),
          .callContract (.withTimeout 5) msg none (.ok data),
          .call c CallOpts.zero "retrieve" [] res, .close]
        [.dialSuccess, .initSuccess, .storeOk tx.hash.String, .setSuccess,
          .receiptSuccess rc.status, .call1Success v]
  | done (chain : BigInt) (c : BoundContract) (opts : TransactOpts) (tx : Transaction)
      (rc : Receipt) (msg : CallMsg) (data : Bytes) (v1 v2 : String)
      (res : List BigInt × Option Err) (hres : res.2 = none) :
      MainShape (.ret ())
        [.dial RPC_URL none, .chainID .background (.ok chain),
          .transact c opts "store" [666] (.ok tx),
          .transactionReceipt .background tx.hash (.ok rc),
          .callContract (.withTimeout 5) msg none (.ok data),
          .call c CallOpts.zero "retrieve" [] res, .close]
        [.dialSuccess, .initSuccess, .storeOk tx.hash.String, .setSuccess,
          .receiptSuccess rc.status, .call1Success v1, .call2Success v2]

/-- Whether a call is a receipt query. -/
def Event.isReceiptQuery : Event → Bool
  | .transactionReceipt _ _ _ => true
  | _ => false

/-- The run as `main` has it right after a successful `Dial`. -/
def connectedRun {σ : Type} (W : World σ) (s : σ) : Run σ :=
  { node := (W.dial RPC_URL s).2, trace := [.dial RPC_URL (W.dial RPC_URL s).1], out := [] }

/-! ## A simulated chain

A concrete node: one chain that hosts the storage contract of `CONTRACT_ABI`
(`store` writes the slot, `retrieve` reads it) at a given address, accepts or
refuses submitted transactions, and mines the pending ones when enough time
has passed. Time passes only in `sleep`. -/

/-- State of the simulated chain. -/
structure Sim where
  reachable : Bool
  chainId : BigInt
  deployed : Bool
  stored : Nat
  accepts : Bool
  blockTime : Nat
  nonce : Nat
  pending : List Transaction
  receipts : List Receipt
deriving DecidableEq

/-- The storage contract run on call data, read-only: the returned bytes, or a
revert for an unknown selector. -/
def Sim.execCall (s : Sim) (data : Bytes) : Except Err Bytes :=
  if data.take 4 = retrieveID then .ok (beBytes 32 s.stored)
  else if data.take 4 = storeID ∧ 36 ≤ data.length then .ok []
  else .error "execution reverted"

/-- An `eth_call`: code at the target runs, a target without code answers with
no bytes. -/
def Sim.ethCall (addr : Address) (msg : CallMsg) (s : Sim) : Except Err Bytes :=
  if msg.toAddr = some addr ∧ s.deployed = true then s.execCall msg.data else .ok []

/-- The code at an address: non-empty exactly at the deployed contract. -/
def Sim.code (addr : Address) (a : Address) (s : Sim) : Bytes :=
  if a = addr ∧ s.deployed = true then [0x60, 0x80, 0x60, 0x40] else []

/-- Mining one transaction: the contract runs it, a receipt is recorded in
front of the earlier ones. -/
def Sim.apply (addr : Address) (s : Sim) (tx : Transaction) : Sim :=
  if tx.toAddr = addr ∧ s.deployed = true then
    if tx.data.take 4 = storeID ∧ 36 ≤ tx.data.length then
      { s with stored := (setBytes ((tx.data.drop 4).take 32)).toNat,
               receipts := { txHash := tx.hash, status := 1 } :: s.receipts }
    else if tx.data.take 4 = retrieveID then
      { s with receipts := { txHash := tx.hash, status := 1 } :: s.receipts }
    else { s with receipts := { txHash := tx.hash, status := 0 } :: s.receipts }
  else { s with receipts := { txHash := tx.hash, status := 1 } :: s.receipts }

/-- Mining a block: the pending transactions run in the order of submission. -/
def Sim.mine (addr : Address) (s : Sim) : Sim :=
  { s.pending.foldl (Sim.apply addr) s with pending := [] }

/-- The node-facing part of a transaction submission on the simulated chain. -/
def Sim.submit (opts : TransactOpts) (toAddr : Address) (input : Bytes) (s : Sim) :
    Except Err Transaction × Sim :=
  match opts.signer with
  | none => (.error "no signer to authorize the transaction with", s)
  | some _ =>
    if s.accepts = true then
      let tx : Transaction :=
        { hash := bytesToHash (beBytes 32 s.nonce), toAddr := toAddr, data := input }
      (.ok tx, { s with nonce := s.nonce + 1, pending := s.pending ++ [tx] })
    else (.error "insufficient funds for gas * price + value", s)

/-- The simulated chain as a node, with the storage contract at `addr`. -/
def simWorld (addr : Address) : World Sim where
  dial := fun _ s => if s.reachable = true then (none, s) else (some "connection refused", s)
  close := fun s => s
  chainID := fun _ s => (.ok s.chainId, s)
  callContract := fun _ msg _ s => (Sim.ethCall addr msg s, s)
  pendingCallContract := fun _ msg s => (Sim.ethCall addr msg s, s)
  codeAt := fun _ a _ s => (.ok (Sim.code addr a s), s)
  pendingCodeAt := fun _ a s => (.ok (Sim.code addr a s), s)
  transact := Sim.submit
  transactionReceipt := fun _ h s =>
    match s.receipts.find? (fun rc => rc.txHash = h) with
    | none => (.error "not found", s)
    | some rc => (.ok rc, s)
  sleep := fun secs s =>
    if s.blockTime ≤ secs then Sim.mine addr s else { s with blockTime := s.blockTime - secs }

/-- The transaction the simulated chain builds for a `store(666)` submission to
`addr` when its nonce is `n`. -/
def storeTx (addr : Address) (n : Nat) : Transaction :=
  { hash := bytesToHash (beBytes 32 n), toAddr := addr, data := storeID ++ beBytes 32 666 }

/-- A library instance for the simulated runs: the ABI text parses to
`contractAbi`, the key decodes, the signer captures key and chain. -/
def simLib : Lib where
  abiJSON := fun _ => .ok contractAbi
  hexToAddress := fun _ => bytesToAddress (beBytes 20 0xc0de)
  hexToECDSA := fun _ => .ok 7
  publicKeyECDSA := fun k => some (k + 1)
  pubkeyToAddress := fun k => bytesToAddress (beBytes 20 k)
  newKeyedTransactorWithChainID := fun k chain =>
    .ok { sender := bytesToAddress (beBytes 20 (k + 1)), nonce := none,
          signer := some { key := k, chainId := chain }, value := none, gasPrice := none,
          gasFeeCap := none, gasTipCap := none, gasLimit := 0, context := some .background,
          noSend := false }

/-- A library instance whose ABI parser rejects its input. -/
def badAbiLib : Lib := { simLib with abiJSON := fun _ => .error "invalid character" }

/-- A simulated chain at rest: reachable, contract deployed, holding `stored`. -/
def simStart (stored : Nat) : Sim :=
  { reachable := true, chainId := 5, deployed := true, stored := stored, accepts := true,
    blockTime := 12, nonce := 0, pending := [], receipts := [] }

/-- A simulated chain on which no contract is deployed: every call is answered
with no bytes, as a node answers a call to an address without code. -/
def noCodeStart : Sim := { simStart 5 with deployed := false }


/-! ### Codec lemmas -/

theorem beBytes_length (w n : Nat) : (beBytes w n).length = w := by
  induction w generalizing n with
  | zero => rfl
  | succ w ih => simp [beBytes, ih]

theorem foldl_beBytes (w n : Nat) :
    (beBytes w n).foldl (fun acc (x : Byte) => acc * 256 + x.val) 0 = n % 256 ^ w := by
  induction w generalizing n with
  | zero => simp [beBytes, Nat.mod_one]
  | succ w ih =>
    simp only [beBytes, List.foldl_append, List.foldl_cons, List.foldl_nil, ih]
    rw [pow_succ, Nat.mul_comm (256 ^ w) 256, Nat.mod_mul]
    omega

theorem setBytes_beBytes (n : Nat) (h : n < 2 ^ 256) : setBytes (beBytes 32 n) = (n : Int) := by
  unfold setBytes
  rw [foldl_beBytes]
  have : (256 : Nat) ^ 32 = 2 ^ 256 := by norm_num
  rw [this, Nat.mod_eq_of_lt h]
  rfl

theorem u256Bytes_ofNat (n : Nat) (h : n < 2 ^ 256) : u256Bytes (n : Int) = beBytes 32 n := by
  unfold u256Bytes
  have h1 : ((n : Int) % 2 ^ 256) = (n : Int) := by
    apply Int.emod_eq_of_lt (Int.ofNat_nonneg n)
    exact_mod_cast h
  rw [h1]
  rfl

theorem fromHexChar_hexDigit (d : Nat) (h : d < 16) : fromHexChar (hexDigit d) = some d := by
  interval_cases d <;> decide

theorem hex2Bytes_encodeHex (b : Bytes) : hex2Bytes (encodeHex b) = b := by
  induction b with
  | nil => rfl
  | cons x xs ih =>
    have h1 : x.val / 16 < 16 := by have := x.isLt; omega
    have h2 : x.val % 16 < 16 := Nat.mod_lt _ (by decide)
    simp only [encodeHex, hex2Bytes, fromHexChar_hexDigit _ h1, fromHexChar_hexDigit _ h2, ih]
    congr 1
    apply Fin.ext
    simp only
    have := x.isLt
    omega

theorem encodeHex_length (b : Bytes) : (encodeHex b).length = 2 * b.length := by
  induction b with
  | nil => rfl
  | cons x xs ih => simp [encodeHex, ih]; omega


/-! ### The program's ABI -/

theorem contractAbi_method_retrieve : contractAbi.method? "retrieve" = some retrieveMethod := rfl

theorem contractAbi_method_store : contractAbi.method? "store" = some storeMethod := rfl

theorem contractAbi_pack_retrieve : contractAbi.pack "retrieve" [] = .ok retrieveID := rfl

theorem contractAbi_pack_store (n : Nat) (h : n < 2 ^ 256) :
    contractAbi.pack "store" [(n : Int)] = .ok (storeID ++ beBytes 32 n) := by
  have h0 : ("store" = "") = False := by decide
  simp only [ABI.pack, h0, if_false, contractAbi_method_store]
  simp [Arguments.pack, storeMethod, Ty.pack, u256Bytes_ofNat n h]

theorem unpack_one (a : Argument) (w rest : Bytes) (hw : w.length = 32) :
    Arguments.unpack [a] (w ++ rest) = ([setBytes w], none) := by
  have hl : ¬ (w ++ rest).length = 0 := by simp [hw]
  have ht : (w ++ rest).take 32 = w := by
    rw [← hw]; simp
  have hlt : ¬ (0 * 32 + 32 > (w ++ rest).length) := by simp [hw]
  simp only [Arguments.unpack, hl, if_false, unpackValuesFrom, toGoType, hlt]
  simp only [Nat.zero_mul, List.drop_zero, ht]

theorem unpack_word (n : Nat) (h : n < 2 ^ 256) (rest : Bytes) :
    Arguments.unpack [{ name := "", ty := .uint256 }] (beBytes 32 n ++ rest)
      = ([(n : Int)], none) := by
  rw [unpack_one _ _ _ (beBytes_length 32 n), setBytes_beBytes n h]

/-- C9. For every `n` in `[0, 2^256-1]`, packing `store(n)` with the program's ABI
gives the 4-byte selector of `store(uint256)` followed by the 32-byte big-endian
word of `n` (36 bytes), and decoding the arguments of that payload through the
same descriptor gives back exactly `n`. -/
theorem store_encode_decode_roundtrip (n : Nat) (h : n < 2 ^ 256) :
    contractAbi.pack "store" [(n : Int)] = .ok (storeID ++ beBytes 32 n)
      ∧ (storeID ++ beBytes 32 n).length = 36
      ∧ contractAbi.decodeCall (storeID ++ beBytes 32 n) = ([(n : Int)], none) := by
  refine ⟨contractAbi_pack_store n h, by simp [storeID, beBytes_length], ?_⟩
  have hlen : ¬ (storeID ++ beBytes 32 n).length < 4 := by simp [storeID, beBytes_length]
  have htake : (storeID ++ beBytes 32 n).take 4 = storeID := by simp [storeID]
  have hdrop : (storeID ++ beBytes 32 n).drop 4 = beBytes 32 n := by simp [storeID]
  have hfind : contractAbi.methods.find? (fun m => m.id = storeID) = some storeMethod := by
    decide
  simp only [ABI.decodeCall, ABI.methodById, hlen, if_false, htake, hfind, hdrop]
  have := unpack_one { name := "num", ty := .uint256 } (beBytes 32 n) [] (beBytes_length 32 n)
  rw [List.append_nil, setBytes_beBytes n h] at this
  exact this

theorem store_encode_decode_roundtrip_witness :
    (666 : Nat) < 2 ^ 256
      ∧ contractAbi.pack "store" [((666 : Nat) : Int)] = .ok (storeID ++ beBytes 32 666)
      ∧ (storeID ++ beBytes 32 666).length = 36
      ∧ contractAbi.decodeCall (storeID ++ beBytes 32 666) = ([((666 : Nat) : Int)], none) :=
  ⟨by norm_num, store_encode_decode_roundtrip 666 (by norm_num)⟩

/-! ### Hash strings -/

theorem hexToHash_String (h : Hash) : hexToHash h.String = h := by
  obtain ⟨b, hb⟩ := h
  have hlen : (encodeHex b).length % 2 = 0 := by rw [encodeHex_length]; omega
  have h1 : fromHex (FixedBytes.String ⟨b, hb⟩) = b := by
    simp only [fromHex, FixedBytes.String, has0xPrefix]
    simp [hlen, hex2Bytes_encodeHex]
  simp only [hexToHash, h1, bytesToHash, FixedBytes.ofBytes]
  congr 1
  simp [hb]

/-! ### The two readers -/

theorem contractAbi_unpack_word (n : Nat) (h : n < 2 ^ 256) :
    contractAbi.unpack "retrieve" (beBytes 32 n) = ([(n : Int)], none) := by
  have hm : ¬ (beBytes 32 n).length % 32 ≠ 0 := by simp [beBytes_length]
  simp only [ABI.unpack, contractAbi_method_retrieve, hm, if_false, retrieveMethod]
  have := unpack_word n h []
  rwa [List.append_nil] at this

theorem callContract_of_response {σ : Type} (L : Lib) (W : World σ) (r : Run σ) (retData : Bytes)
    (hAbi : L.abiJSON CONTRACT_ABI = .ok contractAbi)
    (hCall : (W.callContract (.withTimeout 5) (retrieveMsg L) none r.node).1 = .ok retData) :
    (callContract L W r).1 =
      match (contractAbi.unpack "retrieve" retData).1[0]? with
      | none => .panic "runtime error: index out of range [0] with length 0"
      | some v => .ret (bigIntString v, none) := by
  simp only [retrieveMsg] at hCall
  simp only [callContract, hAbi, contractAbi_pack_retrieve, hCall, convertType]
  split <;> simp_all

theorem callContractEx_of_response {σ : Type} (L : Lib) (W : World σ) (r : Run σ) (retData : Bytes)
    (hne : retData.length ≠ 0)
    (hCall : (W.callContract .background (retrieveMsg L) none r.node).1 = .ok retData) :
    (callContractEx W (some (newBoundContract (L.hexToAddress CONTRACT) contractAbi)) r).1 =
      match (contractAbi.unpack "retrieve" retData).2 with
      | some err => .ret ("", some ("call failed: " ++ err))
      | none =>
        match (contractAbi.unpack "retrieve" retData).1[0]? with
        | none => .panic "runtime error: index out of range [0] with length 0"
        | some v => .ret (bigIntString v, none) := by
  simp only [retrieveMsg] at hCall
  simp only [callContractEx, BoundContract.call, newBoundContract, contractAbi_pack_retrieve,
    CallOpts.zero, ensureContext, hCall, hne, if_false, Bool.false_eq_true, convertType]
  generalize (contractAbi.unpack "retrieve" retData).2 = o
  generalize (contractAbi.unpack "retrieve" retData).1[0]? = x
  cases o with
  | some e => rfl
  | none => cases x <;> rfl

/-- C2. For every stored value `v < 2^256`, when the node answers the read of each
path with the ABI encoding of `v` (the 32-byte big-endian word), `callContract`
and `callContractEx` (on the handle bound to the contract address and the
program's ABI) both return a nil error and the same string, the decimal
representation of `v`. -/
theorem readers_agree {σ : Type} (L : Lib) (W : World σ) (v : Nat) (r1 r2 : Run σ)
    (hv : v < 2 ^ 256)
    (hAbi : L.abiJSON CONTRACT_ABI = .ok contractAbi)
    (h1 : (W.callContract (.withTimeout 5) (retrieveMsg L) none r1.node).1 = .ok (beBytes 32 v))
    (h2 : (W.callContract .background (retrieveMsg L) none r2.node).1 = .ok (beBytes 32 v)) :
    (callContract L W r1).1 = .ret (Nat.repr v, none)
      ∧ (callContractEx W (some (newBoundContract (L.hexToAddress CONTRACT) contractAbi)) r2).1
          = .ret (Nat.repr v, none) := by
  constructor
  · rw [callContract_of_response L W r1 _ hAbi h1, contractAbi_unpack_word v hv]
    rfl
  · rw [callContractEx_of_response L W r2 _ (by simp [beBytes_length]) h2,
      contractAbi_unpack_word v hv]
    rfl

/-! ### What each function adds to a run -/

theorem initSomeinfo_cases {σ : Type} (L : Lib) (W : World σ) (r : Run σ) :
    (initSomeinfo L W r).2.out = r.out
      ∧ ((∃ e, (initSomeinfo L W r).1 = (none, FixedBytes.zero 20, none, some e)
          ∧ ((initSomeinfo L W r).2.trace = r.trace
              ∨ ∃ res, (initSomeinfo L W r).2.trace = r.trace ++ [.chainID .background res]))
        ∨ (∃ abi a auth chain,
            (initSomeinfo L W r).1
                = (some (newBoundContract (L.hexToAddress CONTRACT) abi), a, some auth, none)
              ∧ (initSomeinfo L W r).2.trace
                  = r.trace ++ [.chainID .background (.ok chain)])) := by
  unfold initSomeinfo
  dsimp only
  cases L.abiJSON CONTRACT_ABI with
  | error e => exact ⟨rfl, Or.inl ⟨_, rfl, Or.inl rfl⟩⟩
  | ok abi =>
    dsimp only
    cases (W.chainID Context.background r.node).1 with
    | error e => exact ⟨rfl, Or.inl ⟨_, rfl, Or.inr ⟨_, rfl⟩⟩⟩
    | ok chain =>
      dsimp only
      cases L.hexToECDSA PRIKEY with
      | error e => exact ⟨rfl, Or.inl ⟨_, rfl, Or.inr ⟨_, rfl⟩⟩⟩
      | ok key =>
        dsimp only
        cases L.publicKeyECDSA key with
        | none => exact ⟨rfl, Or.inl ⟨_, rfl, Or.inr ⟨_, rfl⟩⟩⟩
        | some pub =>
          dsimp only
          cases L.newKeyedTransactorWithChainID key chain with
          | error e => exact ⟨rfl, Or.inl ⟨_, rfl, Or.inr ⟨_, rfl⟩⟩⟩
          | ok auth => exact ⟨rfl, Or.inr ⟨_, _, _, chain, rfl, rfl⟩⟩

theorem setContract_cases {σ : Type} (W : World σ) (c : BoundContract) (a : Address)
    (auth : TransactOpts) (r : Run σ) :
    (∃ e opts, (setContract W (some c) a (some auth) r).1 = .ret ("", some (": " ++ e))
        ∧ (setContract W (some c) a (some auth) r).2.trace
            = r.trace ++ [.transact c opts "store" [666] (.error e)]
        ∧ (setContract W (some c) a (some auth) r).2.out = r.out)
      ∨ (∃ tx opts, (setContract W (some c) a (some auth) r).1 = .ret (tx.hash.String, none)
          ∧ (setContract W (some c) a (some auth) r).2.trace
              = r.trace ++ [.transact c opts "store" [666] (.ok tx)]
          ∧ (setContract W (some c) a (some auth) r).2.out
              = r.out ++ [.storeOk tx.hash.String]) := by
  unfold setContract
  dsimp only
  generalize (BoundContract.transact W c _ "store" [666] r.node).1 = res
  cases res with
  | error e => exact Or.inl ⟨e, _, rfl, rfl, rfl⟩
  | ok tx => exact Or.inr ⟨tx, _, rfl, rfl, rfl⟩

theorem callContract_cases {σ : Type} (L : Lib) (W : World σ) (r : Run σ) :
    (callContract L W r).2.out = r.out
      ∧ ((∃ e, (callContract L W r).1 = .ret ("", some e)
            ∧ (callContract L W r).2.trace = r.trace)
        ∨ (∃ e msg, (callContract L W r).1 = .ret ("", some e)
            ∧ (callContract L W r).2.trace
                = r.trace ++ [.callContract (.withTimeout 5) msg none (.error e)])
        ∨ (∃ msg data, (callContract L W r).2.trace
                = r.trace ++ [.callContract (.withTimeout 5) msg none (.ok data)]
            ∧ ((∃ m, (callContract L W r).1 = .panic m)
                ∨ ∃ v, (callContract L W r).1 = .ret (v, none)))) := by
  unfold callContract
  dsimp only
  cases L.abiJSON CONTRACT_ABI with
  | error e => exact ⟨rfl, Or.inl ⟨_, rfl, rfl⟩⟩
  | ok abi =>
    dsimp only
    cases abi.pack "retrieve" [] with
    | error e => exact ⟨rfl, Or.inl ⟨_, rfl, rfl⟩⟩
    | ok data =>
      dsimp only
      generalize (W.callContract (Context.withTimeout 5) _ none r.node).1 = res
      cases res with
      | error e => exact ⟨rfl, Or.inr (Or.inl ⟨e, _, rfl, rfl⟩)⟩
      | ok retData =>
        dsimp only
        cases (abi.unpack "retrieve" retData).1[0]? with
        | none => exact ⟨rfl, Or.inr (Or.inr ⟨_, retData, rfl, Or.inl ⟨_, rfl⟩⟩)⟩
        | some v => exact ⟨rfl, Or.inr (Or.inr ⟨_, retData, rfl, Or.inr ⟨_, rfl⟩⟩)⟩

theorem callContractEx_cases {σ : Type} (W : World σ) (c : BoundContract) (r : Run σ) :
    (callContractEx W (some c) r).2.out = r.out
      ∧ ∃ res, (callContractEx W (some c) r).2.trace
          = r.trace ++ [.call c CallOpts.zero "retrieve" [] res]
        ∧ ((∃ e, res.2 = some e
              ∧ (callContractEx W (some c) r).1 = .ret ("", some ("call failed: " ++ e)))
            ∨ (res.2 = none
              ∧ ((∃ m, (callContractEx W (some c) r).1 = .panic m)
                  ∨ ∃ v, (callContractEx W (some c) r).1 = .ret (v, none)))) := by
  unfold callContractEx
  dsimp only
  generalize (BoundContract.call W c CallOpts.zero "retrieve" [] r.node).1 = res
  obtain ⟨vs, e⟩ := res
  cases e with
  | some e => exact ⟨rfl, _, rfl, Or.inl ⟨e, rfl, rfl⟩⟩
  | none =>
    dsimp only
    cases hv : vs[0]? with
    | none => exact ⟨rfl, _, rfl, Or.inr ⟨rfl, Or.inl ⟨_, rfl⟩⟩⟩
    | some v => exact ⟨rfl, _, rfl, Or.inr ⟨rfl, Or.inr ⟨_, rfl⟩⟩⟩

/-! ### Shape of a run of `main` -/

theorem mainConnected_shape {σ : Type} (L : Lib) (W : World σ) (r : Run σ) :
    ∃ ext lines, (mainConnected L W r).2.trace = r.trace ++ ext
      ∧ (mainConnected L W r).2.out = r.out ++ lines
      ∧ MainShape (mainConnected L W r).1 (.dial RPC_URL none :: ext ++ [.close]) lines := by
  unfold mainConnected
  dsimp only
  obtain ⟨hio, hi⟩ := initSomeinfo_cases L W (r.println .dialSuccess)
  generalize initSomeinfo L W (r.println .dialSuccess) = i at hio hi ⊢
  obtain ⟨⟨ic, ia, iauth, ierr⟩, ir⟩ := i
  dsimp only [Run.println] at hio hi ⊢
  rcases hi with ⟨e, h1, h2⟩ | ⟨abi, a, auth, chain, h1, h2⟩
  · simp only [Prod.mk.injEq] at h1
    obtain ⟨rfl, rfl, rfl, rfl⟩ := h1
    dsimp only
    rcases h2 with h2 | ⟨res, h2⟩
    · exact ⟨[], [.dialSuccess, .initFailed e], by simp [h2], by simp [hio],
        MainShape.initFailed e [] (Or.inl rfl)⟩
    · exact ⟨[.chainID .background res], [.dialSuccess, .initFailed e], by simp [h2],
        by simp [hio], MainShape.initFailed e _ (Or.inr ⟨res, rfl⟩)⟩
  · simp only [Prod.mk.injEq] at h1
    obtain ⟨rfl, rfl, rfl, rfl⟩ := h1
    dsimp only
    generalize hr3 :
      ({ node := ir.node, trace := ir.trace, out := ir.out ++ [Line.initSuccess] } : Run σ) = r3
    have hr3t : r3.trace = r.trace ++ [.chainID .background (.ok chain)] := by
      rw [← hr3]; exact h2
    have hr3o : r3.out = r.out ++ [.dialSuccess, .initSuccess] := by rw [← hr3]; simp [hio]
    clear hr3 h2 hio ir
    have ht := setContract_cases W (newBoundContract (L.hexToAddress CONTRACT) abi) ia auth r3
    generalize newBoundContract (L.hexToAddress CONTRACT) abi = c at ht ⊢
    generalize setContract W (some c) ia (some auth) r3 = t at ht ⊢
    obtain ⟨t1, tr⟩ := t
    dsimp only at ht ⊢
    rcases ht with ⟨e, opts, h1, h2, h3⟩ | ⟨tx, opts, h1, h2, h3⟩
    · subst h1
      dsimp only
      exact ⟨[.chainID .background (.ok chain), .transact c opts "store" [666] (.error e)],
        [.dialSuccess, .initSuccess, .setFailed (": " ++ e)],
        by simp [h2, hr3t], by simp [h3, hr3o], MainShape.setFailed chain c opts e⟩
    · subst h1
      dsimp only [Run.after]
      rw [hexToHash_String]
      generalize W.transactionReceipt Context.background tx.hash (W.sleep 15 tr.node) = q
      obtain ⟨q1, q2⟩ := q
      cases q1 with
      | error e =>
        dsimp only
        exact ⟨[.chainID .background (.ok chain), .transact c opts "store" [666] (.ok tx),
            .transactionReceipt .background tx.hash (.error e)],
          [.dialSuccess, .initSuccess, .storeOk tx.hash.String, .setSuccess, .receiptFailed e],
          by simp [h2, hr3t], by simp [h3, hr3o], MainShape.receiptFailed chain c opts tx e⟩
      | ok rc =>
        dsimp only
        generalize hr5 : (Run.mk q2
          (tr.trace ++ [Event.transactionReceipt Context.background tx.hash (Except.ok rc)])
          (tr.out ++ [Line.setSuccess] ++ [Line.receiptSuccess rc.status]) : Run σ) = r5
        have hr5t : r5.trace = r.trace ++ [.chainID .background (.ok chain),
            .transact c opts "store" [666] (.ok tx),
            .transactionReceipt .background tx.hash (.ok rc)] := by
          rw [← hr5]; simp [h2, hr3t]
        have hr5o : r5.out = r.out ++ [.dialSuccess, .initSuccess, .storeOk tx.hash.String,
            .setSuccess, .receiptSuccess rc.status] := by
          rw [← hr5]; simp [h3, hr3o]
        clear hr5 h2 h3 hr3t hr3o tr r3 q2
        obtain ⟨hc1o, hc1⟩ := callContract_cases L W r5
        generalize callContract L W r5 = c1 at hc1o hc1 ⊢
        obtain ⟨c1r, c1run⟩ := c1
        dsimp only at hc1o hc1 ⊢
        rcases hc1 with ⟨e, h1, h2⟩ | ⟨e, msg, h1, h2⟩ | ⟨msg, data, h2, ⟨m, h1⟩ | ⟨v, h1⟩⟩
        · subst h1
          dsimp only
          exact ⟨[.chainID .background (.ok chain), .transact c opts "store" [666] (.ok tx),
              .transactionReceipt .background tx.hash (.ok rc)] ++ [],
            [.dialSuccess, .initSuccess, .storeOk tx.hash.String, .setSuccess,
              .receiptSuccess rc.status, .call1Failed e],
            by simp [h2, hr5t], by simp [hc1o, hr5o],
            by simpa using MainShape.call1Failed chain c opts tx rc e [] (Or.inl rfl)⟩
        · subst h1
          dsimp only
          exact ⟨[.chainID .background (.ok chain), .transact c opts "store" [666] (.ok tx),
              .transactionReceipt .background tx.hash (.ok rc)]
                ++ [.callContract (.withTimeout 5) msg none (.error e)],
            [.dialSuccess, .initSuccess, .storeOk tx.hash.String, .setSuccess,
              .receiptSuccess rc.status, .call1Failed e],
            by simp [h2, hr5t], by simp [hc1o, hr5o],
            by simpa using MainShape.call1Failed chain c opts tx rc e _ (Or.inr ⟨msg, rfl⟩)⟩
        · subst h1
          dsimp only
          exact ⟨[.chainID .background (.ok chain), .transact c opts "store" [666] (.ok tx),
              .transactionReceipt .background tx.hash (.ok rc),
              .callContract (.withTimeout 5) msg none (.ok data)],
            [.dialSuccess, .initSuccess, .storeOk tx.hash.String, .setSuccess,
              .receiptSuccess rc.status],
            by simp [h2, hr5t], by simp [hc1o, hr5o],
            MainShape.call1Panic chain c opts tx rc msg data m⟩
        · subst h1
          dsimp only
          generalize hr6 : (Run.mk c1run.node c1run.trace
            (c1run.out ++ [Line.call1Success v]) : Run σ) = r6
          have hr6t : r6.trace = r.trace ++ [.chainID .background (.ok chain),
              .transact c opts "store" [666] (.ok tx),
              .transactionReceipt .background tx.hash (.ok rc),
              .callContract (.withTimeout 5) msg none (.ok data)] := by
            rw [← hr6]; simp [h2, hr5t]
          have hr6o : r6.out = r.out ++ [.dialSuccess, .initSuccess, .storeOk tx.hash.String,
              .setSuccess, .receiptSuccess rc.status, .call1Success v] := by
            rw [← hr6]; simp [hc1o, hr5o]
          clear hr6 h2 hc1o hr5t hr5o c1run r5
          obtain ⟨hc2o, res, hc2t, hc2⟩ := callContractEx_cases W c r6
          generalize callContractEx W (some c) r6 = c2 at hc2o hc2t hc2 ⊢
          obtain ⟨c2r, c2run⟩ := c2
          dsimp only at hc2o hc2t hc2 ⊢
          rcases hc2 with ⟨e, hres, h1⟩ | ⟨hres, ⟨m, h1⟩ | ⟨v2, h1⟩⟩
          · subst h1
            dsimp only
            exact ⟨[.chainID .background (.ok chain), .transact c opts "store" [666] (.ok tx),
                .transactionReceipt .background tx.hash (.ok rc),
                .callContract (.withTimeout 5) msg none (.ok data),
                .call c CallOpts.zero "retrieve" [] res],
              [.dialSuccess, .initSuccess, .storeOk tx.hash.String, .setSuccess,
                .receiptSuccess rc.status, .call1Success v, .call2Failed],
              by simp [hc2t, hr6t], by simp [hc2o, hr6o],
              MainShape.call2Failed chain c opts tx rc msg data v res e hres⟩
          · subst h1
            dsimp only
            exact ⟨[.chainID .background (.ok chain), .transact c opts "store" [666] (.ok tx),
                .transactionReceipt .background tx.hash (.ok rc),
                .callContract (.withTimeout 5) msg none (.ok data),
                .call c CallOpts.zero "retrieve" [] res],
              [.dialSuccess, .initSuccess, .storeOk tx.hash.String, .setSuccess,
                .receiptSuccess rc.status, .call1Success v],
              by simp [hc2t, hr6t], by simp [hc2o, hr6o],
              MainShape.call2Panic chain c opts tx rc msg data v res m hres⟩
          · subst h1
            dsimp only
            exact ⟨[.chainID .background (.ok chain), .transact c opts "store" [666] (.ok tx),
                .transactionReceipt .background tx.hash (.ok rc),
                .callContract (.withTimeout 5) msg none (.ok data),
                .call c CallOpts.zero "retrieve" [] res],
              [.dialSuccess, .initSuccess, .storeOk tx.hash.String, .setSuccess,
                .receiptSuccess rc.status, .call1Success v, .call2Success v2],
              by simp [hc2t, hr6t], by simp [hc2o, hr6o],
              MainShape.done chain c opts tx rc msg data v v2 res hres⟩

theorem main_shape {σ : Type} (L : Lib) (W : World σ) (s : σ) :
    MainShape (main L W s).1 (main L W s).2.trace (main L W s).2.out := by
  unfold main
  dsimp only
  cases (W.dial RPC_URL s).1 with
  | some e => exact MainShape.dialFailed e
  | none =>
    dsimp only
    obtain ⟨ext, lines, ht, ho, hs⟩ := mainConnected_shape L W
      (Run.after { node := s, trace := [], out := [] } (Event.dial RPC_URL none) (W.dial RPC_URL s).2)
    generalize mainConnected L W
      (Run.after { node := s, trace := [], out := [] } (Event.dial RPC_URL none) (W.dial RPC_URL s).2)
      = b at ht ho hs ⊢
    obtain ⟨b1, b2⟩ := b
    dsimp only [Run.after] at ht ho hs ⊢
    rw [ht, ho]
    simpa using hs

theorem main_trace_head {σ : Type} (L : Lib) (W : World σ) (s : σ) :
    (main L W s).2.trace.head? = some (.dial RPC_URL (W.dial RPC_URL s).1) := by
  unfold main
  dsimp only
  cases hd : (W.dial RPC_URL s).1 with
  | some e => rfl
  | none =>
    dsimp only
    obtain ⟨ext, lines, ht, -, -⟩ := mainConnected_shape L W
      (Run.after { node := s, trace := [], out := [] } (Event.dial RPC_URL none) (W.dial RPC_URL s).2)
    simp only [Run.after, List.nil_append] at ht ⊢
    simp [ht]

/-- C8. In every run of `main` in which `Dial` succeeds, the trace is the dial,
then calls none of which is a close (each belongs to one of the steps 2 to 6),
then exactly one close at the very end, whether the run completes, aborts at any
step or panics; in a run where `Dial` fails the trace is that one failed dial:
nothing is closed and the client is never used. -/
theorem main_closes_once {σ : Type} (L : Lib) (W : World σ) (s : σ) :
    ((W.dial RPC_URL s).1 = none →
        ∃ pre, (main L W s).2.trace = .dial RPC_URL none :: pre ++ [.close]
          ∧ ∀ e ∈ pre, 2 ≤ e.step ∧ e.step ≤ 6)
      ∧ (∀ err, (W.dial RPC_URL s).1 = some err →
          (main L W s).2.trace = [.dial RPC_URL (some err)]) := by
  have h := main_shape L W s
  have hh := main_trace_head L W s
  generalize (main L W s).2.trace = tr at h hh ⊢
  generalize (main L W s).2.out = out at h
  generalize (main L W s).1 = res at h
  generalize (W.dial RPC_URL s).1 = d at hh ⊢
  cases h with
  | dialFailed e =>
    simp only [List.cons_append, List.head?_cons, Option.some.injEq, Event.dial.injEq,
      true_and] at hh
    subst hh
    exact ⟨fun h => (by cases h), fun err h => (by cases h; rfl)⟩
  | initFailed e pre hpre =>
    simp only [List.cons_append, List.head?_cons, Option.some.injEq, Event.dial.injEq,
      true_and] at hh
    subst hh
    refine ⟨fun _ => ⟨pre, rfl, ?_⟩, by simp⟩
    rcases hpre with rfl | ⟨res, rfl⟩ <;> simp [Event.step]
  | call1Failed chain c opts tx rc e x5 hx5 =>
    simp only [List.cons_append, List.head?_cons, Option.some.injEq, Event.dial.injEq,
      true_and] at hh
    subst hh
    refine ⟨fun _ => ⟨[.chainID .background (.ok chain), .transact c opts "store" [666] (.ok tx),
      .transactionReceipt .background tx.hash (.ok rc)] ++ x5, by simp, ?_⟩, by simp⟩
    rcases hx5 with rfl | ⟨msg, rfl⟩ <;> simp [Event.step]
  | setFailed =>
    simp only [List.cons_append, List.head?_cons, Option.some.injEq, Event.dial.injEq,
      true_and] at hh
    subst hh
    exact ⟨fun _ => ⟨[_, _], rfl, by simp [Event.step]⟩, by simp⟩
  | receiptFailed =>
    simp only [List.cons_append, List.head?_cons, Option.some.injEq, Event.dial.injEq,
      true_and] at hh
    subst hh
    exact ⟨fun _ => ⟨[_, _, _], rfl, by simp [Event.step]⟩, by simp⟩
  | call1Panic =>
    simp only [List.cons_append, List.head?_cons, Option.some.injEq, Event.dial.injEq,
      true_and] at hh
    subst hh
    exact ⟨fun _ => ⟨[_, _, _, _], rfl, by simp [Event.step]⟩, by simp⟩
  | call2Failed | call2Panic | done =>
    simp only [List.cons_append, List.head?_cons, Option.some.injEq, Event.dial.injEq,
      true_and] at hh
    subst hh
    exact ⟨fun _ => ⟨[_, _, _, _, _], rfl, by simp [Event.step]⟩, by simp⟩

theorem main_closes_once_witness :
    (∃ pre, (main simLib (simWorld (simLib.hexToAddress CONTRACT)) (simStart 5)).2.trace
          = .dial RPC_URL none :: pre ++ [.close]
        ∧ ∀ e ∈ pre, 2 ≤ e.step ∧ e.step ≤ 6)
      ∧ (main simLib (simWorld (simLib.hexToAddress CONTRACT))
            { simStart 5 with reachable := false }).2.trace
          = [.dial RPC_URL (some "connection refused")] :=
  ⟨(main_closes_once simLib (simWorld (simLib.hexToAddress CONTRACT)) (simStart 5)).1 rfl,
    (main_closes_once simLib (simWorld (simLib.hexToAddress CONTRACT))
      { simStart 5 with reachable := false }).2 "connection refused" rfl⟩

theorem MainShape.steps_increase {res : Result Unit} {tr : List Event} {out : List Line}
    (h : MainShape res tr out) : (tr.map Event.step).Pairwise (fun a b => a < b) := by
  cases h with
  | initFailed e pre hpre => rcases hpre with rfl | ⟨res, rfl⟩ <;> simp [Event.step]
  | call1Failed chain c opts tx rc e x5 hx5 =>
    rcases hx5 with rfl | ⟨msg, rfl⟩ <;> simp [Event.step]
  | _ => simp [Event.step]

theorem MainShape.level {res : Result Unit} {tr : List Event} {out : List Line}
    (h : MainShape res tr out) :
    ∃ m, (∀ e ∈ tr, e ≠ .close → e.step ≤ m + 1)
      ∧ ∀ k, 1 ≤ k → k ≤ m → ∃ l ∈ out, l.step = k ∧ l.isFailure = false := by
  cases h with
  | dialFailed e => exact ⟨0, by simp [Event.step], fun k h1 h2 => by omega⟩
  | initFailed e pre hpre =>
    refine ⟨1, ?_, fun k h1 h2 => ?_⟩
    · rcases hpre with rfl | ⟨res, rfl⟩ <;> simp [Event.step]
    · interval_cases k; simp [Line.step, Line.isFailure]
  | setFailed =>
    refine ⟨2, by simp [Event.step], fun k h1 h2 => ?_⟩
    interval_cases k <;> simp [Line.step, Line.isFailure]
  | receiptFailed =>
    refine ⟨3, by simp [Event.step], fun k h1 h2 => ?_⟩
    interval_cases k <;> simp [Line.step, Line.isFailure]
  | call1Failed chain c opts tx rc e x5 hx5 =>
    refine ⟨4, ?_, fun k h1 h2 => ?_⟩
    · rcases hx5 with rfl | ⟨msg, rfl⟩ <;> simp [Event.step]
    · interval_cases k <;> simp [Line.step, Line.isFailure]
  | call1Panic =>
    refine ⟨4, by simp [Event.step], fun k h1 h2 => ?_⟩
    interval_cases k <;> simp [Line.step, Line.isFailure]
  | call2Failed =>
    refine ⟨5, by simp [Event.step], fun k h1 h2 => ?_⟩
    interval_cases k <;> simp [Line.step, Line.isFailure]
  | call2Panic =>
    refine ⟨5, by simp [Event.step], fun k h1 h2 => ?_⟩
    interval_cases k <;> simp [Line.step, Line.isFailure]
  | done =>
    refine ⟨5, by simp [Event.step], fun k h1 h2 => ?_⟩
    interval_cases k <;> simp [Line.step, Line.isFailure]

theorem MainShape.failed_reported {res : Result Unit} {tr : List Event} {out : List Line}
    (h : MainShape res tr out) :
    ∀ e ∈ tr, e.failed = true → ∃ l ∈ out, l.isFailure = true ∧ l.step = e.step := by
  cases h with
  | initFailed e pre hpre =>
    rcases hpre with rfl | ⟨res, rfl⟩
    · simp [Event.failed]
    · cases res <;> simp [Event.failed, Event.step, Line.step, Line.isFailure]
  | call1Failed chain c opts tx rc e x5 hx5 =>
    rcases hx5 with rfl | ⟨msg, rfl⟩ <;>
      simp [Event.failed, Event.step, Line.step, Line.isFailure]
  | call2Failed chain c opts tx rc msg data v res e hres =>
    obtain ⟨vs, o⟩ := res
    simp only at hres
    subst hres
    simp [Event.failed, Event.step, Line.step, Line.isFailure]
  | call2Panic chain c opts tx rc msg data v res m hres =>
    obtain ⟨vs, o⟩ := res
    simp only at hres
    subst hres
    simp [Event.failed, Event.step, Line.step, Line.isFailure]
  | done chain c opts tx rc msg data v1 v2 res hres =>
    obtain ⟨vs, o⟩ := res
    simp only at hres
    subst hres
    simp [Event.failed, Event.step, Line.step, Line.isFailure]
  | _ => simp [Event.failed, Event.step, Line.step, Line.isFailure]

theorem MainShape.failure_last {res : Result Unit} {tr : List Event} {out : List Line}
    (h : MainShape res tr out) :
    ∀ l ∈ out, l.isFailure = true →
      (∀ e ∈ tr, e.step ≤ l.step ∨ e = .close) ∧ ∀ l' ∈ out, l'.step < l.step ∨ l' = l := by
  cases h with
  | initFailed e pre hpre =>
    rcases hpre with rfl | ⟨res, rfl⟩ <;> simp [Event.step, Line.step, Line.isFailure]
  | call1Failed chain c opts tx rc e x5 hx5 =>
    rcases hx5 with rfl | ⟨msg, rfl⟩ <;> simp [Event.step, Line.step, Line.isFailure]
  | _ => simp [Event.step, Line.step, Line.isFailure]

theorem mainConnected_init_failed {σ : Type} (L : Lib) (W : World σ) (r : Run σ) (err : Err)
    (h : (initSomeinfo L W (r.println .dialSuccess)).1.2.2.2 = some err) :
    (mainConnected L W r).2.out = r.out ++ [.dialSuccess, .initFailed err] := by
  unfold mainConnected
  dsimp only
  rw [h]
  dsimp only [Run.println]
  rw [(initSomeinfo_cases L W _).1]
  simp [Run.println]

theorem main_out_connected {σ : Type} (L : Lib) (W : World σ) (s : σ)
    (hd : (W.dial RPC_URL s).1 = none) :
    (main L W s).2.out = (mainConnected L W (connectedRun W s)).2.out := by
  unfold main connectedRun
  dsimp only
  rw [hd]
  rfl

/-- C6. Every failure halts the run of `main`, and no step is retried. In every
run: (1) the calls made belong to strictly increasing steps (connect,
`initSomeinfo`, `setContract`, receipt query, `callContract`, `callContractEx`,
close), so no step is entered twice; (2) a call of a step is made only after
every earlier step has printed its success line; (3) every call that is answered
with an error is reported by the diagnostic line of its step; (4) once a step has
printed its diagnostic line, no call of a later step is made (only the deferred
close follows) and every other line printed belongs to a strictly earlier step;
(5) when `initSomeinfo` returns an error after a successful dial, its diagnostic
line is printed. -/
theorem main_halts_on_failure {σ : Type} (L : Lib) (W : World σ) (s : σ) :
    ((main L W s).2.trace.map Event.step).Pairwise (fun a b => a < b)
      ∧ (∀ e ∈ (main L W s).2.trace, e ≠ .close → ∀ k, 1 ≤ k → k < e.step →
          ∃ l ∈ (main L W s).2.out, l.step = k ∧ l.isFailure = false)
      ∧ (∀ e ∈ (main L W s).2.trace, e.failed = true →
          ∃ l ∈ (main L W s).2.out, l.isFailure = true ∧ l.step = e.step)
      ∧ (∀ l ∈ (main L W s).2.out, l.isFailure = true →
          (∀ e ∈ (main L W s).2.trace, e.step ≤ l.step ∨ e = .close)
            ∧ ∀ l' ∈ (main L W s).2.out, l'.step < l.step ∨ l' = l)
      ∧ (∀ err, (W.dial RPC_URL s).1 = none →
          (initSomeinfo L W ((connectedRun W s).println .dialSuccess)).1.2.2.2 = some err →
          (main L W s).2.out = [.dialSuccess, .initFailed err]) := by
  have h := main_shape L W s
  refine ⟨h.steps_increase, ?_, h.failed_reported, h.failure_last, ?_⟩
  · obtain ⟨m, hm1, hm2⟩ := h.level
    intro e he hne k hk1 hk2
    exact hm2 k hk1 (by have := hm1 e he hne; omega)
  · intro err hd hi
    rw [main_out_connected L W s hd, mainConnected_init_failed L W _ err hi]
    rfl

theorem main_halts_on_failure_witness :
    (main badAbiLib (simWorld (simLib.hexToAddress CONTRACT)) (simStart 5)).2.out
      = [.dialSuccess, .initFailed ": invalid character"] :=
  (main_halts_on_failure badAbiLib (simWorld (simLib.hexToAddress CONTRACT)) (simStart 5)).2.2.2.2
    ": invalid character" rfl rfl

/-- C10. The receipt `main` asks for is the receipt of the transaction it
submitted. For every 32-byte hash `h`, `h.String()` is `0x` followed by 64 hex
digits and `HexToHash` of it is `h` again; and in every run of `main`, as soon
as a submission was answered with a transaction the receipt queries of the run
are exactly one, for the hash of that transaction, and a run with a receipt
query has such a submission of `store(666)`. -/
theorem receipt_query_matches_submission {σ : Type} (L : Lib) (W : World σ) (s : σ) (h : Hash) :
    (hexToHash h.String = h ∧ h.String.length = 66 ∧ h.String.data.take 2 = ['0', 'x'])
      ∧ (∀ c opts m ps tx, Event.transact c opts m ps (.ok tx) ∈ (main L W s).2.trace →
          ∃ res, (main L W s).2.trace.filter Event.isReceiptQuery
            = [.transactionReceipt .background tx.hash res])
      ∧ ((main L W s).2.trace.filter Event.isReceiptQuery ≠ [] →
          ∃ c opts tx, Event.transact c opts "store" [666] (.ok tx) ∈ (main L W s).2.trace) := by
  refine ⟨⟨hexToHash_String h, ?_, rfl⟩, ?_, ?_⟩
  · show (('0' :: 'x' :: encodeHex h.bytes) : List Char).length = 66
    simp [encodeHex_length, h.size]
  · have hs := main_shape L W s
    generalize (main L W s).2.trace = tr at hs ⊢
    generalize (main L W s).2.out = out at hs
    generalize (main L W s).1 = res at hs
    intro c opts m ps tx hmem
    cases hs with
    | initFailed e pre hpre => rcases hpre with rfl | ⟨res, rfl⟩ <;> simp at hmem
    | call1Failed chain c opts tx rc e x5 hx5 =>
      rcases hx5 with rfl | ⟨msg, rfl⟩ <;> simp at hmem <;>
        simp [hmem, List.filter, Event.isReceiptQuery]
    | dialFailed => simp at hmem
    | setFailed => simp at hmem
    | _ => simp at hmem; simp [hmem, List.filter, Event.isReceiptQuery]
  · have hs := main_shape L W s
    generalize (main L W s).2.trace = tr at hs ⊢
    generalize (main L W s).2.out = out at hs
    generalize (main L W s).1 = res at hs
    intro hne
    cases hs with
    | initFailed e pre hpre =>
      rcases hpre with rfl | ⟨res, rfl⟩ <;> simp [List.filter, Event.isReceiptQuery] at hne
    | call1Failed chain c opts tx rc e x5 hx5 => exact ⟨c, opts, tx, by simp⟩
    | dialFailed => simp [List.filter, Event.isReceiptQuery] at hne
    | setFailed => simp [List.filter, Event.isReceiptQuery] at hne
    | receiptFailed chain c opts tx => exact ⟨c, opts, tx, by simp⟩
    | call1Panic chain c opts tx => exact ⟨c, opts, tx, by simp⟩
    | call2Failed chain c opts tx => exact ⟨c, opts, tx, by simp⟩
    | call2Panic chain c opts tx => exact ⟨c, opts, tx, by simp⟩
    | done chain c opts tx => exact ⟨c, opts, tx, by simp⟩

set_option maxRecDepth 100000 in
theorem receipt_query_matches_submission_witness :
    ∃ c opts tx, Event.transact c opts "store" [666] (.ok tx)
      ∈ (main simLib (simWorld (simLib.hexToAddress CONTRACT)) (simStart 5)).2.trace :=
  (receipt_query_matches_submission simLib (simWorld (simLib.hexToAddress CONTRACT))
    (simStart 5) (FixedBytes.zero 32)).2.2 (List.ne_nil_of_length_pos (by decide))

/-! ### The writer -/

/-- C4. For every bound handle, address and signer, `setContract` makes exactly
one submission: one `Transact` call on the handle, of `store` with the single
argument 666, with options that carry the given address as sender, the given
signer, a background context and nothing else (no nonce, no value, no gas price,
fee cap, tip cap or gas limit). If the submission is answered with a transaction,
`setContract` returns the hex string of its hash and a nil error; if it is
answered with an error, `setContract` returns the empty string and a non-nil
error. For a handle bound to the program's ABI the submitted payload is the
selector of `store(uint256)` followed by the 32-byte word of 666. -/
theorem setContract_submits_store {σ : Type} (W : World σ) (c : BoundContract) (a : Address)
    (auth : TransactOpts) (r : Run σ) :
    (setContract W (some c) a (some auth) r).2.trace
        = r.trace ++ [.transact c (storeOpts a auth) "store" [666]
            (c.transact W (storeOpts a auth) "store" [666] r.node).1]
      ∧ (setContract W (some c) a (some auth) r).2.node
          = (c.transact W (storeOpts a auth) "store" [666] r.node).2
      ∧ (setContract W (some c) a (some auth) r).1
          = (match (c.transact W (storeOpts a auth) "store" [666] r.node).1 with
            | .ok tx => .ret (tx.hash.String, none)
            | .error e => .ret ("", some (": " ++ e)))
      ∧ storeOpts a auth
          = { sender := a, nonce := none, signer := auth.signer, value := none, gasPrice := none,
              gasFeeCap := none, gasTipCap := none, gasLimit := 0,
              context := some .background, noSend := false }
      ∧ (newBoundContract c.address contractAbi).transact W (storeOpts a auth) "store" [666] r.node
          = W.transact (storeOpts a auth) c.address (storeID ++ beBytes 32 666) r.node := by
  refine ⟨?_, ?_, ?_, rfl, ?_⟩
  · unfold setContract
    dsimp only
    cases (BoundContract.transact W c (storeOpts a auth) "store" [666] r.node).1 <;> rfl
  · unfold setContract
    dsimp only
    cases (BoundContract.transact W c (storeOpts a auth) "store" [666] r.node).1 <;> rfl
  · unfold setContract
    dsimp only
    cases (BoundContract.transact W c (storeOpts a auth) "store" [666] r.node).1 <;> rfl
  · have h := contractAbi_pack_store 666 (by norm_num)
    simp only [Nat.cast_ofNat] at h
    simp only [BoundContract.transact, newBoundContract, h]

/-! ### The binding builder -/

/-- C5. `initSomeinfo` is all-or-nothing. It returns either a non-nil error
together with a nil handle, the all-zero address and a nil signer, or a nil error
together with a handle, an address and a signer; and the error is nil exactly when
every step succeeds (the ABI parses, the chain-ID query is answered, the private
key decodes, the public key converts, the signer is created), in which case the
outputs are the handle bound to the contract address and the parsed ABI, the
address derived from the public key, and the created signer. -/
theorem initSomeinfo_all_or_nothing {σ : Type} (L : Lib) (W : World σ) (r : Run σ) :
    ((∃ e, (initSomeinfo L W r).1 = (none, FixedBytes.zero 20, none, some e))
        ∨ ∃ c a auth, (initSomeinfo L W r).1 = (some c, a, some auth, none))
      ∧ ((initSomeinfo L W r).1.2.2.2 = none ↔
          ∃ abi chain key pub auth, L.abiJSON CONTRACT_ABI = .ok abi
            ∧ (W.chainID .background r.node).1 = .ok chain
            ∧ L.hexToECDSA PRIKEY = .ok key
            ∧ L.publicKeyECDSA key = some pub
            ∧ L.newKeyedTransactorWithChainID key chain = .ok auth
            ∧ (initSomeinfo L W r).1
                = (some (newBoundContract (L.hexToAddress CONTRACT) abi),
                    L.pubkeyToAddress pub, some auth, none)) := by
  unfold initSomeinfo
  dsimp only
  cases L.abiJSON CONTRACT_ABI with
  | error e => exact ⟨Or.inl ⟨_, rfl⟩, by simp⟩
  | ok abi =>
    dsimp only
    cases (W.chainID Context.background r.node).1 with
    | error e => exact ⟨Or.inl ⟨_, rfl⟩, by simp⟩
    | ok chain =>
      dsimp only
      cases L.hexToECDSA PRIKEY with
      | error e => exact ⟨Or.inl ⟨_, rfl⟩, by simp⟩
      | ok key =>
        dsimp only
        cases hp : L.publicKeyECDSA key with
        | none => exact ⟨Or.inl ⟨_, rfl⟩, by simp [hp]⟩
        | some pub =>
          dsimp only
          cases ha : L.newKeyedTransactorWithChainID key chain with
          | error e => exact ⟨Or.inl ⟨_, rfl⟩, by simp [hp, ha]⟩
          | ok auth => exact ⟨Or.inr ⟨_, _, _, rfl⟩, by simp [hp, ha]⟩

/-- C7. When parsing the ABI JSON fails, `initSomeinfo` returns an error and
leaves the run as it was: no call is made and the node is not touched. In
general a run of `initSomeinfo` that makes any call has parsed the ABI
successfully before, and the only call it makes is one chain-ID query. -/
theorem initSomeinfo_abi_failure_no_call {σ : Type} (L : Lib) (W : World σ) (r : Run σ) :
    (∀ e, L.abiJSON CONTRACT_ABI = .error e →
        initSomeinfo L W r = ((none, FixedBytes.zero 20, none, some (": " ++ e)), r))
      ∧ ((initSomeinfo L W r).2.trace ≠ r.trace →
          (∃ abi, L.abiJSON CONTRACT_ABI = .ok abi)
            ∧ (initSomeinfo L W r).2.trace
                = r.trace ++ [.chainID .background (W.chainID .background r.node).1]) := by
  unfold initSomeinfo
  dsimp only
  cases L.abiJSON CONTRACT_ABI with
  | error e => exact ⟨fun e h => (by cases h; rfl), fun h => absurd rfl h⟩
  | ok abi =>
    dsimp only
    refine ⟨fun e h => (by cases h), fun _ => ⟨⟨abi, rfl⟩, ?_⟩⟩
    cases (W.chainID Context.background r.node).1 with
    | error e => rfl
    | ok chain =>
      dsimp only
      cases L.hexToECDSA PRIKEY with
      | error e => rfl
      | ok key =>
        dsimp only
        cases L.publicKeyECDSA key with
        | none => rfl
        | some pub =>
          dsimp only
          cases L.newKeyedTransactorWithChainID key chain <;> rfl

theorem initSomeinfo_abi_failure_no_call_witness :
    initSomeinfo badAbiLib (simWorld (simLib.hexToAddress CONTRACT))
        { node := simStart 5, trace := [], out := [] }
      = ((none, FixedBytes.zero 20, none, some ": invalid character"),
          { node := simStart 5, trace := [], out := [] }) :=
  (initSomeinfo_abi_failure_no_call badAbiLib (simWorld (simLib.hexToAddress CONTRACT))
    { node := simStart 5, trace := [], out := [] }).1 "invalid character" rfl

/-! ### The simulated chain -/

theorem Sim.apply_deployed (addr : Address) (s : Sim) (tx : Transaction) :
    (Sim.apply addr s tx).deployed = s.deployed := by
  unfold Sim.apply
  split_ifs <;> rfl

theorem Sim.foldl_apply_deployed (addr : Address) (txs : List Transaction) (s : Sim) :
    (txs.foldl (Sim.apply addr) s).deployed = s.deployed := by
  induction txs generalizing s with
  | nil => rfl
  | cons tx txs ih => rw [List.foldl_cons, ih, Sim.apply_deployed]

theorem Sim.apply_storeTx (addr : Address) (n : Nat) (s : Sim) (hd : s.deployed = true) :
    Sim.apply addr s (storeTx addr n)
      = { s with stored := 666,
                 receipts := { txHash := (storeTx addr n).hash, status := 1 } :: s.receipts } := by
  have h1 : (storeTx addr n).data.take 4 = storeID := by simp [storeTx, storeID]
  have h2 : 36 ≤ (storeTx addr n).data.length := by simp [storeTx, storeID, beBytes_length]
  have h3 : ((storeTx addr n).data.drop 4).take 32 = beBytes 32 666 := by
    have : (storeTx addr n).data.drop 4 = beBytes 32 666 := by simp [storeTx, storeID]
    rw [this]
    exact List.take_of_length_le (by simp [beBytes_length])
  have h4 : (storeTx addr n).toAddr = addr := rfl
  have h5 : (setBytes (beBytes 32 666)).toNat = 666 := by
    rw [setBytes_beBytes 666 (by norm_num)]; rfl
  simp only [Sim.apply, h1, h2, h3, h4, h5, hd, and_self, if_true]

theorem Sim.mine_after_store (addr : Address) (s : Sim) (hd : s.deployed = true) :
    Sim.mine addr { s with nonce := s.nonce + 1, pending := s.pending ++ [storeTx addr s.nonce] }
      = { (s.pending.foldl (Sim.apply addr)
            { s with nonce := s.nonce + 1, pending := s.pending ++ [storeTx addr s.nonce] }) with
          stored := 666,
          receipts := { txHash := (storeTx addr s.nonce).hash, status := 1 }
            :: (s.pending.foldl (Sim.apply addr)
                { s with nonce := s.nonce + 1,
                         pending := s.pending ++ [storeTx addr s.nonce] }).receipts,
          pending := [] } := by
  simp only [Sim.mine, List.foldl_append, List.foldl_cons, List.foldl_nil]
  rw [Sim.apply_storeTx addr s.nonce _ (by rw [Sim.foldl_apply_deployed]; exact hd)]


/-- C3. On the simulated chain (the storage contract deployed at the contract
address, holding any value, with any transactions pending), whenever the chain
is reachable, the library steps of `initSomeinfo` succeed with a signer, the
chain accepts the submitted transaction and mines within the 15 seconds `main`
waits, the run of `main` returns normally and prints, in this order: the two
success lines, the hash of the submitted transaction, the submission success
line, receipt status 1, `666` from `callContract` and `666` from
`callContractEx`; the contract then holds 666. -/
theorem main_stores_666 (L : Lib) (s : Sim) (key : PrivateKey) (pub : PublicKey) (auth : TransactOpts)
    (hAbi : L.abiJSON CONTRACT_ABI = .ok contractAbi)
    (hKey : L.hexToECDSA PRIKEY = .ok key)
    (hPub : L.publicKeyECDSA key = some pub)
    (hAuth : L.newKeyedTransactorWithChainID key s.chainId = .ok auth)
    (hSigner : auth.signer ≠ none)
    (hReach : s.reachable = true) (hDep : s.deployed = true) (hAcc : s.accepts = true)
    (hMine : s.blockTime ≤ 15) :
    (main L (simWorld (L.hexToAddress CONTRACT)) s).1 = .ret ()
      ∧ (main L (simWorld (L.hexToAddress CONTRACT)) s).2.out
          = [.dialSuccess, .initSuccess,
              .storeOk (storeTx (L.hexToAddress CONTRACT) s.nonce).hash.String, .setSuccess,
              .receiptSuccess 1, .call1Success "666", .call2Success "666"]
      ∧ (main L (simWorld (L.hexToAddress CONTRACT)) s).2.node.stored = 666 := by
  have hpack := contractAbi_pack_store 666 (by norm_num)
  simp only [Nat.cast_ofNat] at hpack
  obtain ⟨sg, hsg⟩ := Option.ne_none_iff_exists'.mp hSigner
  have hinit : ∀ r : Run Sim, r.node = s →
      initSomeinfo L (simWorld (L.hexToAddress CONTRACT)) r
        = ((some (newBoundContract (L.hexToAddress CONTRACT) contractAbi),
            L.pubkeyToAddress pub, some auth, none),
           r.after (.chainID .background (.ok s.chainId)) s) := by
    intro r hr
    simp only [initSomeinfo, hAbi, simWorld, hr, hKey, hPub, hAuth]
  have hset : ∀ r : Run Sim, r.node = s →
      setContract (simWorld (L.hexToAddress CONTRACT))
          (some (newBoundContract (L.hexToAddress CONTRACT) contractAbi))
          (L.pubkeyToAddress pub) (some auth) r
        = (.ret ((storeTx (L.hexToAddress CONTRACT) s.nonce).hash.String, none),
            (r.after (.transact (newBoundContract (L.hexToAddress CONTRACT) contractAbi)
                (storeOpts (L.pubkeyToAddress pub) auth) "store" [666]
                (.ok (storeTx (L.hexToAddress CONTRACT) s.nonce)))
              { s with nonce := s.nonce + 1,
                       pending := s.pending ++ [storeTx (L.hexToAddress CONTRACT) s.nonce] }).println
              (.storeOk (storeTx (L.hexToAddress CONTRACT) s.nonce).hash.String)) := by
    intro r hr
    simp only [setContract, BoundContract.transact, newBoundContract, hpack, simWorld, Sim.submit,
      storeOpts, hsg, hr, hAcc, if_true, storeTx]
  have hread1 : ∀ r : Run Sim, r.node.deployed = true → r.node.stored = 666 →
      callContract L (simWorld (L.hexToAddress CONTRACT)) r
        = (.ret ("666", none),
            r.after (.callContract (.withTimeout 5) (retrieveMsg L) none (.ok (beBytes 32 666)))
              r.node) := by
    intro r hd hs
    have hresp : Sim.ethCall (L.hexToAddress CONTRACT) (retrieveMsg L) r.node
        = .ok (beBytes 32 666) := by
      have ht : retrieveID.take 4 = retrieveID := rfl
      simp only [Sim.ethCall, retrieveMsg, hd, Sim.execCall, hs, ht, and_self, if_true]
    have hun := contractAbi_unpack_word 666 (by norm_num)
    simp only [Nat.cast_ofNat] at hun
    simp only [retrieveMsg] at hresp
    simp only [callContract, hAbi, contractAbi_pack_retrieve, simWorld, hresp, hun, retrieveMsg]
    rfl
  have hread2 : ∀ r : Run Sim, r.node.deployed = true → r.node.stored = 666 →
      callContractEx (simWorld (L.hexToAddress CONTRACT))
          (some (newBoundContract (L.hexToAddress CONTRACT) contractAbi)) r
        = (.ret ("666", none),
            r.after (.call (newBoundContract (L.hexToAddress CONTRACT) contractAbi) CallOpts.zero
              "retrieve" [] ([666], none)) r.node) := by
    intro r hd hs
    have hresp : Sim.ethCall (L.hexToAddress CONTRACT) (retrieveMsg L) r.node
        = .ok (beBytes 32 666) := by
      have ht : retrieveID.take 4 = retrieveID := rfl
      simp only [Sim.ethCall, retrieveMsg, hd, Sim.execCall, hs, ht, and_self, if_true]
    have hun := contractAbi_unpack_word 666 (by norm_num)
    simp only [Nat.cast_ofNat] at hun
    simp only [retrieveMsg] at hresp
    have hlen : ¬ (beBytes 32 666).length = 0 := by simp [beBytes_length]
    simp only [callContractEx, BoundContract.call, newBoundContract, contractAbi_pack_retrieve,
      CallOpts.zero, ensureContext, simWorld, hresp, hun, hlen, if_false, Bool.false_eq_true]
    rfl
  have hdial : (simWorld (L.hexToAddress CONTRACT)).dial RPC_URL s = (none, s) := by
    simp only [simWorld, hReach, if_true]
  have hmine := Sim.mine_after_store (L.hexToAddress CONTRACT) s hDep
  generalize hs3 : Sim.mine (L.hexToAddress CONTRACT)
    { s with nonce := s.nonce + 1,
             pending := s.pending ++ [storeTx (L.hexToAddress CONTRACT) s.nonce] } = s3 at hmine
  have hs3d : s3.deployed = true := by
    rw [hmine]; simp only [Sim.foldl_apply_deployed]; exact hDep
  have hs3s : s3.stored = 666 := by rw [hmine]
  have hs3r : s3.receipts.find? (fun rc => rc.txHash = (storeTx (L.hexToAddress CONTRACT) s.nonce).hash)
      = some { txHash := (storeTx (L.hexToAddress CONTRACT) s.nonce).hash, status := 1 } := by
    rw [hmine]; simp
  have hsleep : (simWorld (L.hexToAddress CONTRACT)).sleep 15
      { s with nonce := s.nonce + 1,
               pending := s.pending ++ [storeTx (L.hexToAddress CONTRACT) s.nonce] } = s3 := by
    simp only [simWorld, hMine, if_true, hs3]
  have hrec : (simWorld (L.hexToAddress CONTRACT)).transactionReceipt .background
      (storeTx (L.hexToAddress CONTRACT) s.nonce).hash s3
      = (.ok { txHash := (storeTx (L.hexToAddress CONTRACT) s.nonce).hash, status := 1 }, s3) := by
    simp only [simWorld, hs3r]
  unfold main
  dsimp only
  rw [hdial]
  dsimp only
  unfold mainConnected
  dsimp only
  rw [hinit _ rfl]
  dsimp only
  rw [hset _ rfl]
  dsimp only [Run.after, Run.println]
  rw [hexToHash_String, hsleep, hrec]
  dsimp only
  rw [hread1 _ hs3d hs3s]
  dsimp only [Run.after]
  rw [hread2 _ hs3d hs3s]
  dsimp only [Run.after]
  exact ⟨rfl, rfl, hs3s⟩

set_option maxRecDepth 100000 in
theorem main_stores_666_witness :
    (main simLib (simWorld (simLib.hexToAddress CONTRACT)) (simStart 5)).1 = .ret ()
      ∧ (main simLib (simWorld (simLib.hexToAddress CONTRACT)) (simStart 5)).2.out
          = [.dialSuccess, .initSuccess,
              .storeOk (storeTx (simLib.hexToAddress CONTRACT) (simStart 5).nonce).hash.String,
              .setSuccess, .receiptSuccess 1, .call1Success "666", .call2Success "666"]
      ∧ (main simLib (simWorld (simLib.hexToAddress CONTRACT)) (simStart 5)).2.node.stored = 666 :=
  main_stores_666 simLib (simStart 5) 7 8
    { sender := bytesToAddress (beBytes 20 8), nonce := none,
      signer := some { key := 7, chainId := 5 }, value := none, gasPrice := none,
      gasFeeCap := none, gasTipCap := none, gasLimit := 0, context := some .background,
      noSend := false }
    rfl rfl rfl rfl (Option.some_ne_none _) rfl rfl rfl (by decide)

set_option maxRecDepth 100000 in
theorem readers_agree_witness :
    (5 : Nat) < 2 ^ 256
      ∧ (callContract simLib (simWorld (simLib.hexToAddress CONTRACT))
          { node := simStart 5, trace := [], out := [] }).1 = .ret (Nat.repr 5, none)
      ∧ (callContractEx (simWorld (simLib.hexToAddress CONTRACT))
          (some (newBoundContract (simLib.hexToAddress CONTRACT) contractAbi))
          { node := simStart 5, trace := [], out := [] }).1 = .ret (Nat.repr 5, none) :=
  ⟨by norm_num,
    readers_agree simLib (simWorld (simLib.hexToAddress CONTRACT)) 5
      { node := simStart 5, trace := [], out := [] } { node := simStart 5, trace := [], out := [] }
      (by norm_num) rfl rfl rfl⟩

/-! ### The raw reader on a response that does not decode -/

theorem ABI.unpack_fst_of_error (a : ABI) (name : String) (data : Bytes)
    (h : (a.unpack name data).2 ≠ none) : (a.unpack name data).1 = [] := by
  unfold ABI.unpack Arguments.unpack at *
  repeat' split
  all_goals first
    | rfl
    | (exfalso; revert h; simp_all)

theorem contractAbi_unpack_short (data : Bytes) (h : data.length < 32) :
    (contractAbi.unpack "retrieve" data).2 ≠ none := by
  simp only [ABI.unpack, contractAbi_method_retrieve, retrieveMethod]
  by_cases hm : data.length % 32 ≠ 0
  · simp [hm]
  · have h0 : data.length = 0 := by omega
    simp [Arguments.unpack, h0]

theorem callContract_panics_of_decode_error {σ : Type} (L : Lib) (W : World σ) (r : Run σ)
    (retData : Bytes)
    (hAbi : L.abiJSON CONTRACT_ABI = .ok contractAbi)
    (hCall : (W.callContract (.withTimeout 5) (retrieveMsg L) none r.node).1 = .ok retData)
    (hBad : (contractAbi.unpack "retrieve" retData).2 ≠ none) :
    (callContract L W r).1 = .panic "runtime error: index out of range [0] with length 0" := by
  rw [callContract_of_response L W r retData hAbi hCall,
    ABI.unpack_fst_of_error contractAbi "retrieve" retData hBad]
  rfl

set_option maxRecDepth 100000 in
/-- C1. On the empty response (the answer of a node to a call to an address
without code) `callContract` does not return an error: `Unpack` fails, its error
is dropped, and indexing the empty result panics. On the same response
`callContractEx` returns the empty string and a non-nil error. -/
theorem callContract_panics_on_empty_response :
    ((simWorld (simLib.hexToAddress CONTRACT)).callContract (.withTimeout 5)
        (retrieveMsg simLib) none noCodeStart).1 = .ok []
      ∧ (contractAbi.unpack "retrieve" []).2
          = some "abi: attempting to unmarshal an empty string while arguments are expected"
      ∧ (callContract simLib (simWorld (simLib.hexToAddress CONTRACT))
          { node := noCodeStart, trace := [], out := [] }).1
          = .panic "runtime error: index out of range [0] with length 0"
      ∧ (callContractEx (simWorld (simLib.hexToAddress CONTRACT))
          (some (newBoundContract (simLib.hexToAddress CONTRACT) contractAbi))
          { node := noCodeStart, trace := [], out := [] }).1
          = .ret ("", some "call failed: no contract code at given address") :=
  ⟨rfl, rfl, rfl, rfl⟩

end Part4
